import Mathlib

/-!
# subconverter: the line parser and the subscribe handler

A shallow embedding of `main.go`.  A Go `string` / `[]byte` is a list of
bytes (`Bytes`, each element a natural number below 256).  A method that
mutates its receiver is a function from the receiver before the call to the
receiver after it, paired with the returned error.  The functions of the Go
standard library that the parser calls (`strings.TrimPrefix`, `strings.Cut`,
`strconv.Atoi`, `url.QueryUnescape`, `url.ParseQuery`, `strings.Split`,
`strings.TrimSpace`) are embedded from the standard library's source (Go 1.17 or
later, where `;` is no longer a separator of a query string), for a 64-bit platform
(`int` has 64 bits).  What lies outside the program and its string functions (the HTTP
fetch, the base64 decoder, the Unicode slow path of `strings.TrimSpace`, the template
engine, the text of an error) is a field of `Env`.
-/

namespace SubConverter

/-- A Go string or byte slice. -/
abbrev Bytes := List Nat

/-- The bytes of an ASCII literal. -/
def ascii (s : String) : Bytes := s.toList.map Char.toNat

/-! ## Errors -/

/-- The two sentinel errors of package strconv. -/
inductive NumErr where
  | ErrSyntax
  | ErrRange
  deriving DecidableEq, Repr

/-- The error values the program can produce. -/
inductive GoError where
  /-- io.EOF -/
  | EOF
  /-- strconv.NumError with fields Func, Num, Err -/
  | NumError (fn : String) (num : Bytes) (err : NumErr)
  /-- url.EscapeError -/
  | EscapeError (s : Bytes)
  /-- an error made by errors.New or fmt.Errorf -/
  | errorString (msg : String)
  deriving DecidableEq, Repr

/-! ## package strings -/

/-- strings.HasPrefix -/
def HasPrefix (s pre : Bytes) : Bool := s.take pre.length == pre

/-- strings.TrimPrefix -/
def TrimPrefix (s pre : Bytes) : Bytes :=
  if HasPrefix s pre then s.drop pre.length else s

/-- strings.Cut with a one-byte separator: the text before the first
separator, the text after it, and whether it was found. -/
def Cut : Bytes → Nat → Bytes × Bytes × Bool
  | [], _ => ([], [], false)
  | c :: rest, sep =>
    if c = sep then ([], rest, true)
    else
      let r := Cut rest sep
      (c :: r.1, r.2.1, r.2.2)

/-- strings.Contains with a one-byte substring. -/
def Contains (s : Bytes) (b : Nat) : Bool := s.contains b

/-- strings.Split with a one-byte separator. -/
def Split : Bytes → Nat → List Bytes
  | [], _ => [[]]
  | c :: rest, sep =>
    if c = sep then [] :: Split rest sep
    else
      match Split rest sep with
      | [] => [[c]]
      | h :: t => (c :: h) :: t

/-! ## package strconv -/

/-- strconv.IntSize on a 64-bit platform. -/
def intSize : Nat := 64

/-- The function syntaxError of strconv. -/
def syntaxError (fn : String) (str : Bytes) : GoError := .NumError fn str .ErrSyntax

/-- The function rangeError of strconv. -/
def rangeError (fn : String) (str : Bytes) : GoError := .NumError fn str .ErrRange

/-- The function lower of strconv: `c | ('x' - 'X')`. -/
def lower (c : Nat) : Nat := c ||| 32

/-- The digit loop of strconv.ParseUint for base 10 and bitSize 0; `s0` is the
whole argument, `n` the uint64 accumulator. -/
def ParseUintLoop (s0 : Bytes) : Nat → Bytes → Nat × Option GoError
  | n, [] => (n, none)
  | n, c :: rest =>
    let cutoff := (2 ^ 64 - 1) / 10 + 1
    let maxVal := 2 ^ intSize - 1
    if 48 ≤ c ∧ c ≤ 57 then
      let d := c - 48
      if d ≥ 10 then (0, some (syntaxError "ParseUint" s0))
      else if n ≥ cutoff then (maxVal, some (rangeError "ParseUint" s0))
      else
        let n10 := (n * 10) % 2 ^ 64
        let n1 := (n10 + d) % 2 ^ 64
        if n1 < n10 ∨ n1 > maxVal then (maxVal, some (rangeError "ParseUint" s0))
        else ParseUintLoop s0 n1 rest
    else if 97 ≤ lower c ∧ lower c ≤ 122 then
      let d := (lower c - 97 + 10) % 256
      if d ≥ 10 then (0, some (syntaxError "ParseUint" s0))
      else if n ≥ cutoff then (maxVal, some (rangeError "ParseUint" s0))
      else
        let n10 := (n * 10) % 2 ^ 64
        let n1 := (n10 + d) % 2 ^ 64
        if n1 < n10 ∨ n1 > maxVal then (maxVal, some (rangeError "ParseUint" s0))
        else ParseUintLoop s0 n1 rest
    else (0, some (syntaxError "ParseUint" s0))

/-- strconv.ParseUint(s, 10, 0). -/
def ParseUint (s : Bytes) : Nat × Option GoError :=
  if s = [] then (0, some (syntaxError "ParseUint" s))
  else ParseUintLoop s 0 s

/-- The conversion int64(u) of a uint64. -/
def int64 (u : Nat) : Int := if u < 2 ^ 63 then (u : Int) else (u : Int) - 2 ^ 64

/-- Negation of an int64. -/
def neg64 (n : Int) : Int := if n = -(2 ^ 63) then n else -n

/-- strconv.ParseInt(s, 10, 0). -/
def ParseInt (s : Bytes) : Int × Option GoError :=
  if s = [] then (0, some (syntaxError "ParseInt" s))
  else
    let s0 := s
    let neg : Bool := s.head? = some 45
    let s1 := if s.head? = some 43 then s.tail else if s.head? = some 45 then s.tail else s
    match ParseUint s1 with
    | (_, some (.NumError _ _ .ErrSyntax)) => (0, some (.NumError "ParseInt" s0 .ErrSyntax))
    | (un, _) =>
      let cutoff : Nat := 2 ^ (intSize - 1)
      if !neg && un ≥ cutoff then ((cutoff : Int) - 1, some (rangeError "ParseInt" s0))
      else if neg && un > cutoff then (-(cutoff : Int), some (rangeError "ParseInt" s0))
      else
        let n := int64 un
        (if neg then neg64 n else n, none)

/-- The digit loop of the fast path of strconv.Atoi; `none` is the syntax
error. -/
def AtoiFastLoop : Int → Bytes → Option Int
  | n, [] => some n
  | n, ch :: rest =>
    let ch := (ch + 256 - 48) % 256
    if ch > 9 then none else AtoiFastLoop (n * 10 + (ch : Int)) rest

/-- strconv.Atoi. -/
def Atoi (s : Bytes) : Int × Option GoError :=
  let sLen := s.length
  if 0 < sLen ∧ sLen < 19 then
    let s0 := s
    let signed : Bool := s.head? = some 45 || s.head? = some 43
    let s1 := if signed then s.tail else s
    if signed && s1.length < 1 then (0, some (syntaxError "Atoi" s0))
    else
      match AtoiFastLoop 0 s1 with
      | none => (0, some (syntaxError "Atoi" s0))
      | some n => (if s0.head? = some 45 then -n else n, none)
  else
    match ParseInt s with
    | (i64, some (.NumError _ num e)) => (i64, some (.NumError "Atoi" num e))
    | r => r

/-! ## package net/url -/

/-- The function ishex of net/url. -/
def ishex (c : Nat) : Bool :=
  (48 ≤ c && c ≤ 57) || (97 ≤ c && c ≤ 102) || (65 ≤ c && c ≤ 70)

/-- The function unhex of net/url. -/
def unhex (c : Nat) : Nat :=
  if 48 ≤ c ∧ c ≤ 57 then c - 48
  else if 97 ≤ c ∧ c ≤ 102 then c - 97 + 10
  else if 65 ≤ c ∧ c ≤ 70 then c - 65 + 10
  else 0

/-- First loop of unescape in mode encodeQueryComponent: counts the `%`,
checks that each is followed by two hexadecimal digits, and notes a `+`. -/
def unescapeScan : Bytes → Nat → Bool → Except GoError (Nat × Bool)
  | [], n, hasPlus => .ok (n, hasPlus)
  | c :: rest, n, hasPlus =>
    if c = 37 then
      match rest with
      | a :: b :: rest2 =>
        if ishex a && ishex b then unescapeScan rest2 (n + 1) hasPlus
        else .error (.EscapeError ((c :: rest).take 3))
      | _ => .error (.EscapeError ((c :: rest).take 3))
    else if c = 43 then unescapeScan rest n true
    else unescapeScan rest n hasPlus

/-- Second loop of unescape in mode encodeQueryComponent: builds the result. -/
def unescapeBuild : Bytes → Bytes
  | [] => []
  | c :: rest =>
    if c = 37 then
      match rest with
      | a :: b :: rest2 => (((unhex a <<< 4) % 256) ||| unhex b) :: unescapeBuild rest2
      | _ => []
    else if c = 43 then 32 :: unescapeBuild rest
    else c :: unescapeBuild rest

/-- url.QueryUnescape: on an error the returned string is empty. -/
def QueryUnescape (s : Bytes) : Bytes × Option GoError :=
  match unescapeScan s 0 false with
  | .error e => ([], some e)
  | .ok (n, hasPlus) =>
    if n = 0 ∧ hasPlus = false then (s, none)
    else (unescapeBuild s, none)

/-- url.Values, a map from a key to the list of its values. -/
abbrev Values := Bytes → List Bytes

/-- The method Get of url.Values. -/
def Values.Get (v : Values) (key : Bytes) : Bytes :=
  match v key with
  | [] => []
  | x :: _ => x

/-- The statement `m[key] = append(m[key], value)`. -/
def Values.add (m : Values) (key value : Bytes) : Values :=
  fun k => if k = key then m key ++ [value] else m k

/-- The loop of parseQuery in net/url.  Every iteration shortens a non-empty
`query`, so `query.length` iterations suffice; the first argument bounds them. -/
def parseQueryLoop : Nat → Values → Option GoError → Bytes → Values × Option GoError
  | 0, m, err, _ => (m, err)
  | fuel + 1, m, err, query =>
    if query = [] then (m, err)
    else
      let c := Cut query 38
      let key := c.1
      let query2 := c.2.1
      if Contains key 59 then
        parseQueryLoop fuel m (some (.errorString "invalid semicolon separator in query")) query2
      else if key = [] then parseQueryLoop fuel m err query2
      else
        let kv := Cut key 61
        match QueryUnescape kv.1 with
        | (_, some err1) => parseQueryLoop fuel m (if err = none then some err1 else err) query2
        | (key1, none) =>
          match QueryUnescape kv.2.1 with
          | (_, some err1) => parseQueryLoop fuel m (if err = none then some err1 else err) query2
          | (value, none) => parseQueryLoop fuel (m.add key1 value) err query2

/-- url.ParseQuery. -/
def ParseQuery (query : Bytes) : Values × Option GoError :=
  parseQueryLoop query.length (fun _ => []) none query

/-! ## main.go -/

/-- The struct SubItem. -/
structure SubItem where
  Name : Bytes
  Type_ : Bytes
  Server : Bytes
  Port : Int
  Password : Bytes
  Udp : Bool
  Sni : Bytes
  SkipCertVerify : Bool
  Network : Bytes
  deriving DecidableEq, Repr

/-- The zero value of SubItem (`var item SubItem`). -/
def SubItem.zero : SubItem :=
  { Name := [], Type_ := [], Server := [], Port := 0, Password := [], Udp := false,
    Sni := [], SkipCertVerify := false, Network := [] }

/-- The loop of readUntil over a bytes.Reader, whose unread bytes are the
second argument: the data read, the error, and the bytes left unread. -/
def readUntilLoop (term : Nat) : Bytes → Bytes → Bytes × Option GoError × Bytes
  | data, [] => (data, some .EOF, [])
  | data, b :: r =>
    if b = term then (data, none, r)
    else readUntilLoop term (data ++ [b]) r

/-- The function readUntil, on a bytes.Reader with unread bytes `r`. -/
def readUntil (r : Bytes) (term : Nat) : Bytes × Option GoError × Bytes :=
  readUntilLoop term [] r

/-- The method fromLineSmart: the receiver after the call and the returned
error. -/
def fromLineSmart (s : SubItem) (line : Bytes) : SubItem × Option GoError :=
  let reader := line
  match readUntil reader 58 with
  | (_, some err, _) => (s, some err)
  | (protocol, none, reader) =>
  let s := { s with Type_ := protocol }
  match readUntil reader 64 with
  | (_, some err, _) => (s, some err)
  | (password, none, reader) =>
  let s := { s with Password := TrimPrefix password [47, 47] }
  match readUntil reader 58 with
  | (_, some err, _) => (s, some err)
  | (server, none, reader) =>
  let s := { s with Server := server }
  match readUntil reader 63 with
  | (_, some err, _) => (s, some err)
  | (port, none, reader) =>
  match Atoi port with
  | (p, some err) => ({ s with Port := p }, some err)
  | (p, none) =>
  let s := { s with Port := p }
  match readUntil reader 35 with
  | (_, some err, _) => (s, some err)
  | (args, none, reader) =>
  match ParseQuery args with
  | (_, some err) => (s, some err)
  | (u, none) =>
  let s := { s with Sni := u.Get (ascii "sni") }
  let s := { s with Network := u.Get (ascii "type") }
  let s := { s with SkipCertVerify := (u.Get (ascii "allowInsecure") == ascii "1") }
  let s := { s with Udp := true }
  -- io.ReadAll on a bytes.Reader returns the unread bytes and no error
  let name := reader
  ({ s with Name := (QueryUnescape name).1 }, none)

/-! ## strings.TrimSpace and the subscribe handler -/

/-- What the collaborators outside main.go answer during one request. -/
structure Env where
  /-- http.Get: an error, or a response with this body stream -/
  Get : Bytes → Except GoError Bytes
  /-- ioutil.ReadAll of base64.NewDecoder(base64.StdEncoding, body) -/
  ReadAllBase64 : Bytes → Bytes × Option GoError
  /-- strings.TrimFunc(s, unicode.IsSpace) -/
  TrimFuncIsSpace : Bytes → Bytes
  /-- strings.TrimRightFunc(s, unicode.IsSpace) -/
  TrimRightFuncIsSpace : Bytes → Bytes
  /-- template.ParseFiles(tplFile): the error, if any -/
  ParseFiles : Bytes → Option GoError
  /-- Execute of the template parsed from tplFile: what it wrote, and the error -/
  Execute : Bytes → List SubItem → Bytes × Option GoError
  /-- the method Error of an error value -/
  Error : GoError → Bytes

/-- The table asciiSpace of package strings. -/
def asciiSpace (c : Nat) : Bool :=
  c = 9 || c = 10 || c = 11 || c = 12 || c = 13 || c = 32

/-- One of the two scanning loops of strings.TrimSpace, over the bytes in
scanning order: `true` with the bytes from the first non-ASCII byte on, or
`false` with the bytes from the first ASCII non-space byte on. -/
def trimScan : Bytes → Bool × Bytes
  | [] => (false, [])
  | c :: rest =>
    if c ≥ 128 then (true, c :: rest)
    else if asciiSpace c then trimScan rest
    else (false, c :: rest)

/-- strings.TrimSpace. -/
def TrimSpace (env : Env) (s : Bytes) : Bytes :=
  match trimScan s with
  | (true, rest) => env.TrimFuncIsSpace rest
  | (false, rest) =>
    match trimScan rest.reverse with
    | (true, r) => env.TrimRightFuncIsSpace r.reverse
    | (false, r) => r.reverse

/-- A panic-aware result: the function returned, or it panicked. -/
inductive Outcome (α : Type) where
  | returned (a : α)
  | panicked (v : GoError)

/-- The function renderTemplate: template.Must panics when ParseFiles fails. -/
def renderTemplate (env : Env) (tplFile : Bytes) (items : List SubItem) :
    Outcome (Bytes × Option GoError) :=
  match env.ParseFiles tplFile with
  | some e => .panicked e
  | none =>
    match env.Execute tplFile items with
    | (_, some err) => .returned ([], some err)
    | (buf, none) => .returned (buf, none)

/-- The http.ResponseWriter: the status line once written, and the body. -/
structure ResponseWriter where
  status : Option Nat
  body : Bytes
  deriving DecidableEq, Repr

/-- The method WriteHeader: the first status written stands. -/
def ResponseWriter.WriteHeader (w : ResponseWriter) (code : Nat) : ResponseWriter :=
  if w.status = none then { w with status := some code } else w

/-- The method Write: writes status 200 first when none was written. -/
def ResponseWriter.Write (w : ResponseWriter) (b : Bytes) : ResponseWriter :=
  let w := w.WriteHeader 200
  { w with body := w.body ++ b }

/-- The calls the handler makes to the stages of the pipeline. -/
inductive Call where
  | Get (url : Bytes)
  | ReadAll (body : Bytes)
  | fromLineSmart (line : Bytes)
  | renderTemplate (tplFile : Bytes) (items : List SubItem)
  deriving DecidableEq, Repr

/-- The batch loop of the handler over the remaining `nodes`: the items
appended so far, the parser calls made so far, and the error that ended the
loop. -/
def parseNodes (env : Env) :
    List Bytes → List SubItem → List Call → List SubItem × List Call × Option GoError
  | [], items, calls => (items, calls, none)
  | v :: nodes, items, calls =>
    let node := TrimSpace env v
    if node = [] then parseNodes env nodes items calls
    else
      match fromLineSmart SubItem.zero node with
      | (_, some err) => (items, calls ++ [.fromLineSmart node], some err)
      | (item, none) => parseNodes env nodes (items ++ [item]) (calls ++ [.fromLineSmart node])

/-- One run of the handler: the response written, the stage calls made in
order, and the panic value if the handler panicked. -/
structure Run where
  w : ResponseWriter
  calls : List Call
  panic : Option GoError

/-- The handler of `/subscribe`, for the submitted form value `token`. -/
def subscribe (env : Env) (flagLink flagTpl flagToken token : Bytes) : Run :=
  let response : ResponseWriter := { status := none, body := [] }
  if token ≠ flagToken then
    let response := response.WriteHeader 500
    let response := response.Write (ascii "permission denied")
    { w := response, calls := [], panic := none }
  else
    match env.Get flagLink with
    | .error _ => { w := response.WriteHeader 500, calls := [.Get flagLink], panic := none }
    | .ok body =>
    match env.ReadAllBase64 body with
    | (_, some _) =>
      { w := response.WriteHeader 500, calls := [.Get flagLink, .ReadAll body], panic := none }
    | (data, none) =>
    let nodes := Split data 10
    match parseNodes env nodes [] [.Get flagLink, .ReadAll body] with
    | (_, calls, some err) =>
      let response := response.WriteHeader 500
      let response := response.Write (env.Error err)
      { w := response, calls := calls, panic := none }
    | (items, calls, none) =>
    let calls := calls ++ [.renderTemplate flagTpl items]
    match renderTemplate env flagTpl items with
    | .panicked v => { w := response, calls := calls, panic := some v }
    | .returned (_, some err) =>
      let response := response.WriteHeader 500
      let response := response.Write (env.Error err)
      { w := response, calls := calls, panic := none }
    | .returned (rspData, none) =>
      { w := response.Write rspData, calls := calls, panic := none }

/-! ## main.go: the legacy parser fromLine -/

/-- An index expression `xs[i]` of Go: the element, or the run-time panic
`index out of range` when `i` is not below the length. -/
def index (xs : List Bytes) (i : Nat) : Outcome Bytes :=
  match xs[i]? with
  | some x => .returned x
  | none => .panicked (.errorString "runtime error: index out of range")

/-- The method fromLine: it returns the receiver after the call and the error, or it
panics at an index expression. -/
def fromLine (s : SubItem) (line : Bytes) : Outcome (SubItem × Option GoError) :=
  let lines := Split line 58
  if lines.length ≠ 3 then .returned (s, some (.errorString "invalid line"))
  else
  match index lines 0 with
  | .panicked v => .panicked v
  | .returned l0 =>
  let s := { s with Type_ := l0 }
  match index lines 1 with
  | .panicked v => .panicked v
  | .returned l1 =>
  let subs := Split (TrimPrefix l1 [47, 47]) 64
  if subs.length ≠ 2 then .returned (s, some (.errorString "invalid line"))
  else
  match index subs 0 with
  | .panicked v => .panicked v
  | .returned pw =>
  let s := { s with Password := pw }
  match index subs 1 with
  | .panicked v => .panicked v
  | .returned srv =>
  let s := { s with Server := srv }
  match index lines 2 with
  | .panicked v => .panicked v
  | .returned l2 =>
  let subs := Split l2 63
  match index subs 0 with
  | .panicked v => .panicked v
  | .returned port =>
  let s := { s with Port := (Atoi port).1 }
  match index subs 1 with
  | .panicked v => .panicked v
  | .returned query =>
  match ParseQuery query with
  | (_, some err) => .returned (s, some err)
  | (u, none) =>
  let s := { s with Sni := u.Get (ascii "sni") }
  match index (Split s.Sni 35) 1 with
  | .panicked v => .panicked v
  | .returned name =>
  let s := { s with Name := name }
  match index (Split s.Sni 35) 0 with
  | .panicked v => .panicked v
  | .returned sni =>
  .returned ({ s with Sni := sni }, none)

/-! ## Notions used to state the properties -/

/-- Every byte is a decimal digit `0`..`9`. -/
def isDigits (n : Bytes) : Prop := ∀ c ∈ n, 48 ≤ c ∧ c ≤ 57

instance (n : Bytes) : Decidable (isDigits n) := by unfold isDigits; infer_instance

/-- The base-10 value of a digit string. -/
def decimalValue (n : Bytes) : Nat := n.foldl (fun acc c => acc * 10 + (c - 48)) 0

/-- The URL-unreserved characters: letters, digits, `-`, `_`, `.`, `~`. -/
def unreserved (c : Nat) : Bool :=
  (65 ≤ c && c ≤ 90) || (97 ≤ c && c ≤ 122) || (48 ≤ c && c ≤ 57) ||
    c = 45 || c = 95 || c = 46 || c = 126

/-- The value of a hexadecimal digit. -/
def hexValue (c : Nat) : Nat :=
  if 48 ≤ c ∧ c ≤ 57 then c - 48
  else if 97 ≤ c ∧ c ≤ 102 then c - 87
  else c - 55

/-- Every `%` is followed by two hexadecimal digits. -/
def validPercent : Bytes → Bool
  | [] => true
  | c :: rest =>
    if c = 37 then
      match rest with
      | a :: b :: rest2 => ishex a && ishex b && validPercent rest2
      | _ => false
    else validPercent rest

/-- Percent-decoding as the specification words it: each `%XX` triple is
replaced by the byte XX and every other character is copied unchanged. -/
def percentDecode : Bytes → Bytes
  | [] => []
  | c :: rest =>
    if c = 37 then
      match rest with
      | a :: b :: rest2 => (hexValue a * 16 + hexValue b) :: percentDecode rest2
      | _ => c :: rest
    else c :: percentDecode rest

/-- A query key or value free of the separators and escapes of a query string. -/
def plainText (s : Bytes) : Prop := 38 ∉ s ∧ 59 ∉ s ∧ 61 ∉ s ∧ 37 ∉ s ∧ 43 ∉ s

/-- The port text without its sign: strconv.Atoi accepts one leading `+` or `-`. -/
def dropSign (s : Bytes) : Bytes :=
  match s with
  | 43 :: rest => rest
  | 45 :: rest => rest
  | _ => s

/-- Every element is a byte. -/
def isBytes (s : Bytes) : Prop := ∀ c ∈ s, c < 256

instance (s : Bytes) : Decidable (isBytes s) := by unfold isBytes; infer_instance

/-- The non-blank lines of a list of raw lines: each trimmed, the empty ones removed. -/
def trimmedLines (env : Env) (nodes : List Bytes) : List Bytes :=
  (nodes.map (TrimSpace env)).filter (fun l => decide (l ≠ []))

/-- The non-blank lines of a feed text: split on newline, trimmed, the empty ones
removed. -/
def nonBlankLines (env : Env) (data : Bytes) : List Bytes :=
  trimmedLines env (Split data 10)

/-- An environment for the worked examples: every link answers a body that decodes to
`feed`, the template `missing.tpl` cannot be loaded, and every other template writes the
name of each descriptor on a line of its own. -/
def exampleEnv (feed : Bytes) : Env where
  Get := fun _ => .ok (ascii "body")
  ReadAllBase64 := fun _ => (feed, none)
  TrimFuncIsSpace := fun s => s
  TrimRightFuncIsSpace := fun s => s
  ParseFiles := fun f =>
    if f = ascii "missing.tpl" then some (.errorString "open missing.tpl: no such file or directory")
    else none
  Execute := fun _ items => (items.foldr (fun it acc => it.Name ++ 10 :: acc) [], none)
  Error := fun e =>
    match e with
    | .EOF => ascii "EOF"
    | .errorString msg => ascii msg
    | .NumError _ _ _ => ascii "strconv error"
    | .EscapeError _ => ascii "invalid URL escape"

/-- The descriptor of the line `t://p@h:1?sni=s#n`. -/
def exampleItem : SubItem :=
  { Name := ascii "n", Type_ := ascii "t", Server := ascii "h", Port := 1,
    Password := ascii "p", Udp := true, Sni := ascii "s", SkipCertVerify := false,
    Network := [] }

/-- The line fails to parse. -/
def failsToParse (l : Bytes) : Bool := (fromLineSmart SubItem.zero l).2.isSome

/-- A letter or a digit. -/
def isAlnum (c : Nat) : Bool :=
  (65 ≤ c && c ≤ 90) || (97 ≤ c && c ≤ 122) || (48 ≤ c && c ≤ 57)

/-- A letter, a digit, or one of `:`, `@`, `?`. -/
def sniChar (c : Nat) : Bool := isAlnum c || c = 58 || c = 64 || c = 63

/-- A letter, a digit, or one of `:`, `@`, `?`, `#`. -/
def nameChar (c : Nat) : Bool := sniChar c || c = 35

/-- The raw password field with one leading `//` removed, if it starts with one. -/
def stripSlashes (raw : Bytes) : Bytes :=
  match raw with
  | 47 :: 47 :: rest => rest
  | _ => raw

/-- Query-unescaping as url.QueryUnescape documents it: each `%XX` triple is replaced by
the byte XX, each `+` by a space, and every other character is copied unchanged. -/
def queryDecode : Bytes → Bytes
  | [] => []
  | c :: rest =>
    if c = 37 then
      match rest with
      | a :: b :: rest2 => (hexValue a * 16 + hexValue b) :: queryDecode rest2
      | _ => c :: rest
    else if c = 43 then 32 :: queryDecode rest
    else c :: queryDecode rest

/-! ## Lemmas on the scanner -/

theorem readUntilLoop_append (t : Nat) (a b : Bytes) (h : t ∉ a) (d : Bytes) :
    readUntilLoop t d (a ++ t :: b) = (d ++ a, none, b) := by
  induction a generalizing d with
  | nil => simp [readUntilLoop]
  | cons c a ih =>
    have hc : c ≠ t := fun e => h (by simp [e])
    have ha : t ∉ a := fun e => h (by simp [e])
    simp [readUntilLoop, hc, ih ha]

theorem readUntil_append (t : Nat) (a b : Bytes) (h : t ∉ a) :
    readUntil (a ++ t :: b) t = (a, none, b) := by
  simp [readUntil, readUntilLoop_append t a b h]

theorem readUntilLoop_notMem (t : Nat) (r : Bytes) (h : t ∉ r) (d : Bytes) :
    readUntilLoop t d r = (d ++ r, some .EOF, []) := by
  induction r generalizing d with
  | nil => simp [readUntilLoop]
  | cons c r ih =>
    have hc : c ≠ t := fun e => h (by simp [e])
    have hr : t ∉ r := fun e => h (by simp [e])
    simp [readUntilLoop, hc, ih hr]

theorem readUntil_notMem (t : Nat) (r : Bytes) (h : t ∉ r) :
    readUntil r t = (r, some .EOF, []) := by
  simp [readUntil, readUntilLoop_notMem t r h]

/-- Every input either holds the terminator after a prefix free of it, or
does not hold it at all. -/
theorem split_at_first (t : Nat) (r : Bytes) :
    (∃ a b, r = a ++ t :: b ∧ t ∉ a) ∨ t ∉ r := by
  induction r with
  | nil => right; simp
  | cons c r ih =>
    by_cases hc : c = t
    · left; exact ⟨[], r, by simp [hc], by simp⟩
    · rcases ih with ⟨a, b, hab, ha⟩ | hr
      · left
        refine ⟨c :: a, b, by simp [hab], ?_⟩
        simp only [List.mem_cons, not_or]
        exact ⟨fun e => hc e.symm, ha⟩
      · right
        simp only [List.mem_cons, not_or]
        exact ⟨fun e => hc e.symm, hr⟩

/-- A successful readUntil splits its input at the first terminator. -/
theorem readUntil_ok (t : Nat) (r d r2 : Bytes) (h : readUntil r t = (d, none, r2)) :
    r = d ++ t :: r2 ∧ t ∉ d := by
  rcases split_at_first t r with ⟨a, b, hab, ha⟩ | hr
  · subst hab
    rw [readUntil_append t a b ha] at h
    simp only [Prod.mk.injEq, true_and] at h
    obtain ⟨h1, h2⟩ := h
    subst h1; subst h2
    exact ⟨rfl, ha⟩
  · rw [readUntil_notMem t r hr] at h
    simp at h

/-! ## Lemmas on strconv.Atoi -/

theorem le_foldl_decimal (rest : Bytes) (n : Nat) :
    n ≤ rest.foldl (fun acc c => acc * 10 + (c - 48)) n := by
  induction rest generalizing n with
  | nil => simp
  | cons c rest ih =>
    simp only [List.foldl_cons]
    exact le_trans (by omega) (ih (n * 10 + (c - 48)))

theorem AtoiFastLoop_digits (N : Bytes) (hd : isDigits N) (n : Nat) :
    AtoiFastLoop (n : Int) N =
      some ((N.foldl (fun acc c => acc * 10 + (c - 48)) n : Nat) : Int) := by
  induction N generalizing n with
  | nil => simp [AtoiFastLoop]
  | cons c N ih =>
    have hc : 48 ≤ c ∧ c ≤ 57 := hd c (by simp)
    have hN : isDigits N := fun x hx => hd x (by simp [hx])
    have h1 : (c + 256 - 48) % 256 = c - 48 := by omega
    have h2 : ¬ (c - 48 > 9) := by omega
    simp only [AtoiFastLoop, h1, h2, if_false, List.foldl_cons]
    have := ih hN (n * 10 + (c - 48))
    rw [← this]
    congr 1

theorem ParseUintLoop_digits (s0 N : Bytes) (hd : isDigits N) (n : Nat)
    (hv : N.foldl (fun acc c => acc * 10 + (c - 48)) n < 2 ^ 63) :
    ParseUintLoop s0 n N = (N.foldl (fun acc c => acc * 10 + (c - 48)) n, none) := by
  induction N generalizing n with
  | nil => simp [ParseUintLoop]
  | cons c N ih =>
    have hc : 48 ≤ c ∧ c ≤ 57 := hd c (by simp)
    have hN : isDigits N := fun x hx => hd x (by simp [hx])
    simp only [List.foldl_cons] at hv ⊢
    have hle := le_foldl_decimal N (n * 10 + (c - 48))
    have hb : n * 10 + (c - 48) < 2 ^ 63 := lt_of_le_of_lt hle hv
    have e63 : (2 : Nat) ^ 63 = 9223372036854775808 := by norm_num
    have e64 : (2 : Nat) ^ 64 = 18446744073709551616 := by norm_num
    rw [e63] at hb
    have h1 : ¬ (c - 48 ≥ 10) := by omega
    have h2 : ¬ (n ≥ (2 ^ 64 - 1) / 10 + 1) := by rw [e64]; omega
    have h3 : (n * 10) % 2 ^ 64 = n * 10 := by rw [e64]; omega
    have h4 : (n * 10 + (c - 48)) % 2 ^ 64 = n * 10 + (c - 48) := by rw [e64]; omega
    have h5 : ¬ (n * 10 + (c - 48) < n * 10 ∨ n * 10 + (c - 48) > 2 ^ intSize - 1) := by
      simp only [intSize]; rw [e64]; omega
    rw [ParseUintLoop]
    simp only [hc, and_self, if_true, h1, h2, h3, h4, h5, if_false]
    exact ih hN _ hv

theorem Atoi_digits (N : Bytes) (hne : N ≠ []) (hd : isDigits N)
    (hv : decimalValue N < 2 ^ 63) : Atoi N = (((decimalValue N : Nat) : Int), none) := by
  obtain ⟨c, N2, rfl⟩ := List.exists_cons_of_ne_nil hne
  have hc : 48 ≤ c ∧ c ≤ 57 := hd c (by simp)
  have hc45 : c ≠ 45 := by omega
  have hc43 : c ≠ 43 := by omega
  by_cases hlen : (c :: N2).length < 19
  · have hfast := AtoiFastLoop_digits (c :: N2) hd 0
    simp only [Nat.cast_zero] at hfast
    have hpos : 0 < (c :: N2).length := by simp
    simp only [Atoi, hpos, hlen, and_self, if_true, List.head?_cons, Option.some.injEq, hc45,
      hc43, decide_False, Bool.or_self, Bool.false_and, Bool.false_eq_true, if_false, hfast,
      decimalValue]
  · have hloop := ParseUintLoop_digits (c :: N2) (c :: N2) hd 0 hv
    have hlt : decimalValue (c :: N2) < 2 ^ 63 := hv
    simp only [decimalValue] at hlt
    have hge : ¬ ((c :: N2).foldl (fun acc c => acc * 10 + (c - 48)) 0 ≥ 2 ^ 63) := by omega
    simp only [Atoi, hlen, and_false, if_false, ParseInt, List.head?_cons, Option.some.injEq,
      hc45, hc43, decide_False, ParseUint, hloop, intSize, reduceCtorEq, Bool.not_false,
      Bool.true_and, decide_eq_true_eq, hge, Bool.false_and, Bool.false_eq_true, int64, hlt,
      if_true, decimalValue]

/-! ## Lemmas on percent-decoding -/

theorem unhex_lt (c : Nat) : unhex c < 16 := by
  unfold unhex; split_ifs <;> omega

theorem unhex_eq_hexValue (c : Nat) (h : ishex c = true) : unhex c = hexValue c := by
  simp only [ishex, Bool.or_eq_true, Bool.and_eq_true, decide_eq_true_eq] at h
  unfold unhex hexValue
  split_ifs <;> omega

theorem byte_of_nibbles : ∀ x < 16, ∀ y < 16, ((x <<< 4) % 256) ||| y = x * 16 + y := by
  decide

theorem unescapeBuild_eq_percentDecode (s : Bytes) (hv : validPercent s = true) (hp : 43 ∉ s) :
    unescapeBuild s = percentDecode s := by
  induction s using validPercent.induct with
  | case1 => simp [unescapeBuild, percentDecode]
  | case2 a b rest2 ih =>
    simp only [validPercent, if_true, Bool.and_eq_true] at hv
    have hp2 : 43 ∉ rest2 := fun e => hp (by simp [e])
    simp only [unescapeBuild, percentDecode, if_true, ih hv.2 hp2]
    rw [byte_of_nibbles _ (unhex_lt a) _ (unhex_lt b), unhex_eq_hexValue a hv.1.1,
      unhex_eq_hexValue b hv.1.2]
  | case3 rest hrest =>
    exfalso
    match rest, hrest with
    | [], _ => simp [validPercent] at hv
    | [_], _ => simp [validPercent] at hv
    | a :: b :: r, h => exact h a b r rfl
  | case4 c rest hc ih =>
    have hc43 : c ≠ 43 := fun e => hp (by simp [e])
    have hp2 : 43 ∉ rest := fun e => hp (by simp [e])
    unfold validPercent at hv
    simp only [hc, if_false] at hv
    unfold unescapeBuild percentDecode
    simp only [hc, hc43, if_false, ih hv hp2]

theorem unescapeScan_valid (s : Bytes) (hv : validPercent s = true) (hp : 43 ∉ s) (n : Nat) :
    ∃ k, unescapeScan s n false = .ok (k, false) ∧ n ≤ k ∧ (k = n → percentDecode s = s) := by
  induction s using validPercent.induct generalizing n with
  | case1 => exact ⟨n, by simp [unescapeScan, percentDecode]⟩
  | case2 a b rest2 ih =>
    simp only [validPercent, if_true, Bool.and_eq_true] at hv
    have hp2 : 43 ∉ rest2 := fun e => hp (by simp [e])
    obtain ⟨k, h1, h2, _⟩ := ih hv.2 hp2 (n + 1)
    refine ⟨k, ?_, by omega, fun e => by omega⟩
    simp only [unescapeScan, if_true, hv.1.1, hv.1.2, Bool.and_self, h1]
  | case3 rest hrest =>
    exfalso
    match rest, hrest with
    | [], _ => simp [validPercent] at hv
    | [_], _ => simp [validPercent] at hv
    | a :: b :: r, h => exact h a b r rfl
  | case4 c rest hc ih =>
    have hc43 : c ≠ 43 := fun e => hp (by simp [e])
    have hp2 : 43 ∉ rest := fun e => hp (by simp [e])
    unfold validPercent at hv
    simp only [hc, if_false] at hv
    obtain ⟨k, h1, h2, h3⟩ := ih hv hp2 n
    refine ⟨k, ?_, h2, fun e => ?_⟩
    · unfold unescapeScan
      simp only [hc, hc43, if_false, h1]
    · unfold percentDecode
      simp only [hc, if_false, h3 e]

theorem QueryUnescape_valid (s : Bytes) (hv : validPercent s = true) (hp : 43 ∉ s) :
    QueryUnescape s = (percentDecode s, none) := by
  obtain ⟨k, h1, _, h3⟩ := unescapeScan_valid s hv hp 0
  unfold QueryUnescape
  rw [h1]
  by_cases hk : k = 0
  · simp [hk, h3 hk]
  · simp [hk, unescapeBuild_eq_percentDecode s hv hp]


/-! ## Lemmas on net/url -/

theorem Cut_append (sep : Nat) (a b : Bytes) (h : sep ∉ a) :
    Cut (a ++ sep :: b) sep = (a, b, true) := by
  induction a with
  | nil => simp [Cut]
  | cons c a ih =>
    have hc : c ≠ sep := fun e => h (by simp [e])
    have ha : sep ∉ a := fun e => h (by simp [e])
    simp [Cut, hc, ih ha]

theorem Cut_notMem (sep : Nat) (a : Bytes) (h : sep ∉ a) : Cut a sep = (a, [], false) := by
  induction a with
  | nil => simp [Cut]
  | cons c a ih =>
    have hc : c ≠ sep := fun e => h (by simp [e])
    have ha : sep ∉ a := fun e => h (by simp [e])
    simp [Cut, hc, ih ha]

theorem unescapeScan_plain (s : Bytes) (h37 : 37 ∉ s) (h43 : 43 ∉ s) (n : Nat) (hp : Bool) :
    unescapeScan s n hp = .ok (n, hp) := by
  induction s with
  | nil => simp [unescapeScan]
  | cons c s ih =>
    have hc37 : c ≠ 37 := fun e => h37 (by simp [e])
    have hc43 : c ≠ 43 := fun e => h43 (by simp [e])
    have h1 : 37 ∉ s := fun e => h37 (by simp [e])
    have h2 : 43 ∉ s := fun e => h43 (by simp [e])
    unfold unescapeScan
    simp only [hc37, hc43, if_false, ih h1 h2]

theorem QueryUnescape_plain (s : Bytes) (h37 : 37 ∉ s) (h43 : 43 ∉ s) :
    QueryUnescape s = (s, none) := by
  simp [QueryUnescape, unescapeScan_plain s h37 h43]

theorem parseQueryLoop_nil (fuel : Nat) (m : Values) (err : Option GoError) :
    parseQueryLoop fuel m err [] = (m, err) := by
  cases fuel <;> simp [parseQueryLoop]

theorem unreserved_ne (S : Bytes) (hS : ∀ c ∈ S, unreserved c = true) (x : Nat)
    (hx : unreserved x = false) : x ∉ S := by
  intro h
  have := hS x h
  simp [hx] at this

theorem plainText_of_unreserved (S : Bytes) (hS : ∀ c ∈ S, unreserved c = true) :
    plainText S :=
  ⟨unreserved_ne S hS 38 (by decide), unreserved_ne S hS 59 (by decide),
    unreserved_ne S hS 61 (by decide), unreserved_ne S hS 37 (by decide),
    unreserved_ne S hS 43 (by decide)⟩

theorem parseQueryLoop_pair (fuel : Nat) (m : Values) (err : Option GoError)
    (k v rest : Bytes) (hk : plainText k) (hv : plainText v) :
    parseQueryLoop (fuel + 1) m err (k ++ 61 :: v ++ 38 :: rest) =
      parseQueryLoop fuel (m.add k v) err rest := by
  obtain ⟨k38, k59, k61, k37, k43⟩ := hk
  obtain ⟨v38, v59, v61, v37, v43⟩ := hv
  have hne : k ++ 61 :: v ++ 38 :: rest ≠ [] := by simp
  have hkey : (k ++ 61 :: v) ≠ [] := by simp
  have c1 : Cut (k ++ 61 :: v ++ 38 :: rest) 38 = (k ++ 61 :: v, rest, true) :=
    Cut_append 38 (k ++ 61 :: v) rest (by simp [k38, v38])
  have c2 : Cut (k ++ 61 :: v) 61 = (k, v, true) := Cut_append 61 k v k61
  have s1 : Contains (k ++ 61 :: v) 59 = false := by simp [Contains, k59, v59]
  rw [parseQueryLoop]
  simp only [hne, if_false, c1, s1, Bool.false_eq_true, hkey, c2, QueryUnescape_plain k k37 k43,
    QueryUnescape_plain v v37 v43]

theorem parseQueryLoop_last (fuel : Nat) (m : Values) (err : Option GoError)
    (k v : Bytes) (hk : plainText k) (hv : plainText v) :
    parseQueryLoop (fuel + 1) m err (k ++ 61 :: v) = (m.add k v, err) := by
  obtain ⟨k38, k59, k61, k37, k43⟩ := hk
  obtain ⟨v38, v59, v61, v37, v43⟩ := hv
  have hkey : (k ++ 61 :: v) ≠ [] := by simp
  have c1 : Cut (k ++ 61 :: v) 38 = (k ++ 61 :: v, [], false) :=
    Cut_notMem 38 (k ++ 61 :: v) (by simp [k38, v38])
  have c2 : Cut (k ++ 61 :: v) 61 = (k, v, true) := Cut_append 61 k v k61
  have s1 : Contains (k ++ 61 :: v) 59 = false := by simp [Contains, k59, v59]
  rw [parseQueryLoop]
  simp only [hkey, if_false, c1, s1, Bool.false_eq_true, c2, QueryUnescape_plain k k37 k43,
    QueryUnescape_plain v v37 v43, parseQueryLoop_nil]

theorem ParseQuery_shape (S T : Bytes) (hS : ∀ c ∈ S, unreserved c = true)
    (hT : ∀ c ∈ T, unreserved c = true) :
    ParseQuery (ascii "sni=" ++ S ++ ascii "&type=" ++ T ++ ascii "&allowInsecure=1") =
      (Values.add (Values.add (Values.add (fun _ => []) (ascii "sni") S) (ascii "type") T)
          (ascii "allowInsecure") (ascii "1"), none) := by
  have e1 : ascii "sni=" ++ S ++ ascii "&type=" ++ T ++ ascii "&allowInsecure=1" =
      ascii "sni" ++ 61 :: S ++ 38 :: (ascii "type" ++ 61 :: T ++ 38 ::
        (ascii "allowInsecure" ++ 61 :: ascii "1")) := by
    simp [ascii]
  obtain ⟨k, hk⟩ : ∃ k, (ascii "sni=" ++ S ++ ascii "&type=" ++ T ++
      ascii "&allowInsecure=1").length = k + 1 + 1 + 1 :=
    ⟨S.length + T.length + 23, by simp [ascii]; omega⟩
  have pS := plainText_of_unreserved S hS
  have pT := plainText_of_unreserved T hT
  have p1 : plainText (ascii "sni") := by unfold plainText; decide
  have p2 : plainText (ascii "type") := by unfold plainText; decide
  have p3 : plainText (ascii "allowInsecure") := by unfold plainText; decide
  have p4 : plainText (ascii "1") := by unfold plainText; decide
  unfold ParseQuery
  rw [hk, e1, parseQueryLoop_pair _ _ _ _ _ _ p1 pS, parseQueryLoop_pair _ _ _ _ _ _ p2 pT,
    parseQueryLoop_last _ _ _ _ _ p3 p4]


theorem TrimPrefix_slashes (P : Bytes) : TrimPrefix ([47, 47] ++ P) [47, 47] = P := by
  simp [TrimPrefix, HasPrefix]

theorem not_mem_of_isDigits (N : Bytes) (hd : isDigits N) (x : Nat) (hx : ¬ (48 ≤ x ∧ x ≤ 57)) :
    x ∉ N := fun h => hx (hd x h)

/-! ## The line parser on well-formed lines -/

/-- C1: on a line `T0://P@H:N?sni=S&type=T&allowInsecure=1#Name` with no `:` in T0, no
`@` in P, no `:` in H, N a non-empty digit string whose value fits the 64-bit int, S and T
of unreserved characters and Name validly percent-encoded without `+`, fromLineSmart
returns no error and the descriptor holds Type=T0, Password=P, Server=H, Port=value of N,
Sni=S, Network=T, SkipCertVerify=true, Udp=true and Name=the percent-decoding of Name. -/
theorem fromLineSmart_wellFormed (s : SubItem) (T0 P H N S T Name : Bytes)
    (hT0 : 58 ∉ T0) (hP : 64 ∉ P) (hH : 58 ∉ H)
    (hN : N ≠ []) (hNd : isDigits N) (hNv : decimalValue N < 2 ^ 63)
    (hS : ∀ c ∈ S, unreserved c = true) (hT : ∀ c ∈ T, unreserved c = true)
    (hName : validPercent Name = true) (hplus : 43 ∉ Name) :
    fromLineSmart s (T0 ++ ascii "://" ++ P ++ ascii "@" ++ H ++ ascii ":" ++ N ++
        ascii "?sni=" ++ S ++ ascii "&type=" ++ T ++ ascii "&allowInsecure=1#" ++ Name) =
      ({ Name := percentDecode Name, Type_ := T0, Server := H, Port := (decimalValue N : Nat),
         Password := P, Udp := true, Sni := S, SkipCertVerify := true, Network := T }, none) := by
  have e : T0 ++ ascii "://" ++ P ++ ascii "@" ++ H ++ ascii ":" ++ N ++
        ascii "?sni=" ++ S ++ ascii "&type=" ++ T ++ ascii "&allowInsecure=1#" ++ Name =
      T0 ++ 58 :: (([47, 47] ++ P) ++ 64 :: (H ++ 58 :: (N ++ 63 ::
        ((ascii "sni=" ++ S ++ ascii "&type=" ++ T ++ ascii "&allowInsecure=1") ++ 35 :: Name)))) := by
    simp [ascii]
  have hS' := fun x hx => unreserved_ne S hS x hx
  have hT' := fun x hx => unreserved_ne T hT x hx
  have h2 : 64 ∉ [47, 47] ++ P := by simp [hP]
  have h4 : 63 ∉ N := not_mem_of_isDigits N hNd 63 (by omega)
  have h5 : 35 ∉ ascii "sni=" ++ S ++ ascii "&type=" ++ T ++ ascii "&allowInsecure=1" := by
    simp [ascii, hS' 35 (by decide), hT' 35 (by decide)]
  have g1 : Values.Get (Values.add (Values.add (Values.add (fun _ => []) (ascii "sni") S)
      (ascii "type") T) (ascii "allowInsecure") (ascii "1")) (ascii "sni") = S := by
    simp [Values.Get, Values.add, ascii]
  have g2 : Values.Get (Values.add (Values.add (Values.add (fun _ => []) (ascii "sni") S)
      (ascii "type") T) (ascii "allowInsecure") (ascii "1")) (ascii "type") = T := by
    simp [Values.Get, Values.add, ascii]
  have g3 : Values.Get (Values.add (Values.add (Values.add (fun _ => []) (ascii "sni") S)
      (ascii "type") T) (ascii "allowInsecure") (ascii "1")) (ascii "allowInsecure") =
      ascii "1" := by
    simp [Values.Get, Values.add, ascii]
  rw [e]
  unfold fromLineSmart
  simp only [readUntil_append 58 T0 _ hT0, readUntil_append 64 _ _ h2, readUntil_append 58 H _ hH,
    readUntil_append 63 N _ h4, readUntil_append 35 _ Name h5, TrimPrefix_slashes,
    Atoi_digits N hN hNd hNv, ParseQuery_shape S T hS hT, QueryUnescape_valid Name hName hplus,
    g1, g2, g3, beq_self_eq_true]


theorem fromLineSmart_wellFormed_witness :
    fromLineSmart SubItem.zero
        (ascii "trojan://secret@example.com:443?sni=a.com&type=tcp&allowInsecure=1#My%20Node") =
      ({ Name := ascii "My Node", Type_ := ascii "trojan", Server := ascii "example.com",
         Port := 443, Password := ascii "secret", Udp := true, Sni := ascii "a.com",
         SkipCertVerify := true, Network := ascii "tcp" }, none) :=
  fromLineSmart_wellFormed SubItem.zero (ascii "trojan") (ascii "secret") (ascii "example.com")
    (ascii "443") (ascii "a.com") (ascii "tcp") (ascii "My%20Node") (by decide) (by decide)
    (by decide) (by decide) (by decide) (by decide) (by decide) (by decide) (by decide)
    (by decide)

/-! ## Lines that lack a structural delimiter -/

/-- A successful fromLineSmart has split the line at its five structural delimiters and
filled every field from the pieces. -/
theorem fromLineSmart_ok (s : SubItem) (line : Bytes) (h : (fromLineSmart s line).2 = none) :
    ∃ t pw hst port args name p u,
      line = t ++ 58 :: (pw ++ 64 :: (hst ++ 58 :: (port ++ 63 :: (args ++ 35 :: name)))) ∧
      58 ∉ t ∧ 64 ∉ pw ∧ 58 ∉ hst ∧ 63 ∉ port ∧ 35 ∉ args ∧
      Atoi port = (p, none) ∧ ParseQuery args = (u, none) ∧
      fromLineSmart s line =
        ({ Name := (QueryUnescape name).1, Type_ := t, Server := hst, Port := p,
           Password := TrimPrefix pw [47, 47], Udp := true, Sni := u.Get (ascii "sni"),
           SkipCertVerify := (u.Get (ascii "allowInsecure") == ascii "1"),
           Network := u.Get (ascii "type") }, none) := by
  rcases h1 : readUntil line 58 with ⟨t, e1, r1⟩
  cases e1 with
  | some e => simp [fromLineSmart, h1] at h
  | none =>
  rcases h2 : readUntil r1 64 with ⟨pw, e2, r2⟩
  cases e2 with
  | some e => simp [fromLineSmart, h1, h2] at h
  | none =>
  rcases h3 : readUntil r2 58 with ⟨hst, e3, r3⟩
  cases e3 with
  | some e => simp [fromLineSmart, h1, h2, h3] at h
  | none =>
  rcases h4 : readUntil r3 63 with ⟨port, e4, r4⟩
  cases e4 with
  | some e => simp [fromLineSmart, h1, h2, h3, h4] at h
  | none =>
  rcases h5 : Atoi port with ⟨p, e5⟩
  cases e5 with
  | some e => simp [fromLineSmart, h1, h2, h3, h4, h5] at h
  | none =>
  rcases h6 : readUntil r4 35 with ⟨args, e6, name⟩
  cases e6 with
  | some e => simp [fromLineSmart, h1, h2, h3, h4, h5, h6] at h
  | none =>
  rcases h7 : ParseQuery args with ⟨u, e7⟩
  cases e7 with
  | some e => simp [fromLineSmart, h1, h2, h3, h4, h5, h6, h7] at h
  | none =>
  obtain ⟨q1, n1⟩ := readUntil_ok 58 line t r1 h1
  obtain ⟨q2, n2⟩ := readUntil_ok 64 r1 pw r2 h2
  obtain ⟨q3, n3⟩ := readUntil_ok 58 r2 hst r3 h3
  obtain ⟨q4, n4⟩ := readUntil_ok 63 r3 port r4 h4
  obtain ⟨q6, n6⟩ := readUntil_ok 35 r4 args name h6
  refine ⟨t, pw, hst, port, args, name, p, u, ?_, n1, n2, n3, n4, n6, h5, h7, ?_⟩
  · rw [q1, q2, q3, q4, q6]
  · simp [fromLineSmart, h1, h2, h3, h4, h5, h6, h7]

/-- C2: a line with fewer than two `:`, or no `@`, or no `?`, or no `#` makes
fromLineSmart return an error. -/
theorem fromLineSmart_missing_delimiter (s : SubItem) (line : Bytes)
    (h : line.count 58 < 2 ∨ 64 ∉ line ∨ 63 ∉ line ∨ 35 ∉ line) :
    (fromLineSmart s line).2 ≠ none := by
  intro hok
  obtain ⟨t, pw, hst, port, args, name, p, u, hl, -⟩ := fromLineSmart_ok s line hok
  subst hl
  rcases h with h | h | h | h
  · simp only [List.count_append, List.count_cons, beq_self_eq_true, if_true] at h
    omega
  · exact h (by simp)
  · exact h (by simp)
  · exact h (by simp)

theorem fromLineSmart_missing_delimiter_witness :
    (List.count 58 (ascii "trojan//secret@example.com:443?sni=a.com#n") < 2 ∨
      64 ∉ ascii "trojan//secret@example.com:443?sni=a.com#n" ∨
      63 ∉ ascii "trojan//secret@example.com:443?sni=a.com#n" ∨
      35 ∉ ascii "trojan//secret@example.com:443?sni=a.com#n") ∧
    (fromLineSmart SubItem.zero (ascii "trojan//secret@example.com:443?sni=a.com#n")).2 ≠ none :=
  ⟨by decide, fromLineSmart_missing_delimiter SubItem.zero _ (by decide)⟩

/-! ## strconv.Atoi on a text that is not a number -/

theorem AtoiFastLoop_not_digits (N : Bytes) (hb : isBytes N) (hd : ¬ isDigits N) (n : Int) :
    AtoiFastLoop n N = none := by
  induction N generalizing n with
  | nil => exact absurd (fun c hc => by simp at hc) hd
  | cons c N ih =>
    have hc : c < 256 := hb c (by simp)
    have hN : isBytes N := fun x hx => hb x (by simp [hx])
    unfold AtoiFastLoop
    by_cases hdig : 48 ≤ c ∧ c ≤ 57
    · have h1 : (c + 256 - 48) % 256 = c - 48 := by omega
      have h2 : ¬ (c - 48 > 9) := by omega
      have hd2 : ¬ isDigits N := by
        intro h
        apply hd
        intro x hx
        rcases List.mem_cons.mp hx with e | e
        · rw [e]; exact hdig
        · exact h x e
      simp only [h1, h2, if_false]
      exact ih hN hd2 _
    · have h2 : (c + 256 - 48) % 256 > 9 := by omega
      simp only [h2, if_true]

/-- On a text that is not all digits the loop of ParseUint ends in a syntax error, or in
a range error with the largest uint64. -/
theorem ParseUintLoop_not_digits (s0 N : Bytes) (hd : ¬ isDigits N) (n : Nat) :
    (∃ fn num, ParseUintLoop s0 n N = (0, some (.NumError fn num .ErrSyntax))) ∨
    (∃ fn num, ParseUintLoop s0 n N = (2 ^ 64 - 1, some (.NumError fn num .ErrRange))) := by
  induction N generalizing n with
  | nil => exact absurd (fun c hc => by simp at hc) hd
  | cons c N ih =>
    unfold ParseUintLoop
    by_cases hdig : 48 ≤ c ∧ c ≤ 57
    · have hd2 : ¬ isDigits N := by
        intro h
        apply hd
        intro x hx
        rcases List.mem_cons.mp hx with e | e
        · rw [e]; exact hdig
        · exact h x e
      have h1 : ¬ (c - 48 ≥ 10) := by omega
      simp only [hdig, and_self, if_true, h1, if_false]
      split_ifs
      · right; exact ⟨_, _, rfl⟩
      · right; exact ⟨_, _, rfl⟩
      · exact ih hd2 _
    · simp only [hdig, if_false]
      by_cases hl : 97 ≤ lower c ∧ lower c ≤ 122
      · have h10 : (lower c - 97 + 10) % 256 ≥ 10 := by omega
        simp only [hl, and_self, if_true, h10]
        left; exact ⟨_, _, rfl⟩
      · simp only [hl, if_false]
        left; exact ⟨_, _, rfl⟩

theorem dropSign_eq (s : Bytes) :
    (if s.head? = some 43 then s.tail else if s.head? = some 45 then s.tail else s) =
      dropSign s := by
  match s with
  | [] => rfl
  | c :: rest =>
    by_cases h43 : c = 43
    · subst h43; rfl
    · by_cases h45 : c = 45
      · subst h45; rfl
      · simp only [List.head?_cons, Option.some.injEq, h43, h45, if_false]
        unfold dropSign
        split
        · rename_i heq; simp at heq; exact absurd heq.1 h43
        · rename_i heq; simp at heq; exact absurd heq.1 h45
        · rfl

theorem isDigits_nil : isDigits [] := fun c hc => by simp at hc

theorem ParseInt_not_digits (port : Bytes) (hd : ¬ isDigits (dropSign port)) :
    ∃ v fn num k, ParseInt port = (v, some (.NumError fn num k)) := by
  have hne : port ≠ [] := by
    intro e; subst e; exact hd isDigits_nil
  have hne2 : dropSign port ≠ [] := by
    intro e; rw [e] at hd; exact hd isDigits_nil
  unfold ParseInt
  simp only [hne, if_false, dropSign_eq, ParseUint, hne2]
  rcases ParseUintLoop_not_digits (dropSign port) (dropSign port) hd 0 with
    ⟨fn, num, h⟩ | ⟨fn, num, h⟩
  · rw [h]
    exact ⟨_, _, _, _, rfl⟩
  · rw [h]
    simp only [intSize]
    by_cases hneg : port.head? = some 45
    · simp [hneg, rangeError]
    · simp [hneg, rangeError]

theorem Atoi_not_digits (port : Bytes) (hb : isBytes port) (hd : ¬ isDigits (dropSign port)) :
    (Atoi port).2 ≠ none := by
  unfold Atoi
  by_cases hlen : 0 < port.length ∧ port.length < 19
  · simp only [hlen, and_self, if_true]
    have hs : (if (decide (port.head? = some 45) || decide (port.head? = some 43)) = true
        then port.tail else port) = dropSign port := by
      rw [← dropSign_eq]
      by_cases h43 : port.head? = some 43
      · simp [h43]
      · by_cases h45 : port.head? = some 45
        · simp [h45]
        · simp [h43, h45]
    have hbd : isBytes (dropSign port) := by
      rw [← hs]
      split_ifs
      · exact fun x hx => hb x (List.mem_of_mem_tail hx)
      · exact hb
    rw [hs, AtoiFastLoop_not_digits (dropSign port) hbd hd 0]
    split_ifs <;> simp
  · simp only [hlen, if_false]
    obtain ⟨v, fn, num, k, h⟩ := ParseInt_not_digits port hd
    rw [h]
    simp

/-! ## The port segment -/

/-- C3 (amended): when steps 1-3 succeed and a `?` follows, a port segment (a string of
bytes) that, after one leading `+` or `-` is removed, holds a byte that is not a decimal
digit makes fromLineSmart return an error. -/
theorem fromLineSmart_bad_port (s : SubItem) (t pw hst port rest : Bytes)
    (h1 : 58 ∉ t) (h2 : 64 ∉ pw) (h3 : 58 ∉ hst) (h4 : 63 ∉ port)
    (hb : isBytes port) (hbad : ¬ isDigits (dropSign port)) :
    (fromLineSmart s (t ++ 58 :: (pw ++ 64 :: (hst ++ 58 :: (port ++ 63 :: rest))))).2 ≠ none := by
  have ha := Atoi_not_digits port hb hbad
  rcases h5 : Atoi port with ⟨p, e5⟩
  rw [h5] at ha
  cases e5 with
  | none => exact absurd rfl ha
  | some e =>
    simp [fromLineSmart, readUntil_append 58 t _ h1, readUntil_append 64 pw _ h2,
      readUntil_append 58 hst _ h3, readUntil_append 63 port _ h4, h5]

theorem fromLineSmart_bad_port_witness :
    (fromLineSmart SubItem.zero (ascii "t" ++ 58 :: (ascii "//p" ++ 64 :: (ascii "h" ++ 58 ::
      (ascii "4x3" ++ 63 :: ascii "sni=s#n"))))).2 ≠ none :=
  fromLineSmart_bad_port SubItem.zero (ascii "t") (ascii "//p") (ascii "h") (ascii "4x3")
    (ascii "sni=s#n") (by decide) (by decide) (by decide) (by decide) (by decide) (by decide)

/-- C3 (counterexample): the port segment `+1` holds the non-digit `+`, yet the line
parses, with Port = 1. -/
theorem signed_port_accepted :
    58 ∉ ascii "t" ∧ 64 ∉ ascii "//p" ∧ 58 ∉ ascii "h" ∧ 63 ∉ ascii "+1" ∧
    (∃ c ∈ ascii "+1", ¬ (48 ≤ c ∧ c ≤ 57)) ∧
    fromLineSmart SubItem.zero (ascii "t" ++ 58 :: (ascii "//p" ++ 64 :: (ascii "h" ++ 58 ::
      (ascii "+1" ++ 63 :: ascii "sni=s#n")))) =
      ({ Name := ascii "n", Type_ := ascii "t", Server := ascii "h", Port := 1,
         Password := ascii "p", Udp := true, Sni := ascii "s", SkipCertVerify := false,
         Network := [] }, none) := by
  decide

/-! ## The name after the `#` -/

theorem unescapeScan_invalid (s : Bytes) (hv : validPercent s = false) (n : Nat) (hp : Bool) :
    ∃ e, unescapeScan s n hp = .error (.EscapeError e) := by
  induction s, n, hp using unescapeScan.induct with
  | case1 n hp => simp [validPercent] at hv
  | case2 n hp a b rest2 hab ih =>
    simp only [validPercent, if_true, hab, Bool.true_and] at hv
    obtain ⟨e, he⟩ := ih hv
    exact ⟨e, by simp only [unescapeScan, if_true, hab, he]⟩
  | case3 n hp a b rest2 hab =>
    exact ⟨_, by simp only [unescapeScan, if_true, hab, Bool.false_eq_true, if_false]; rfl⟩
  | case4 rest n hp hrest =>
    refine ⟨(37 :: rest).take 3, ?_⟩
    unfold unescapeScan
    simp only [if_true]
  | case5 rest n hp _ ih =>
    unfold validPercent at hv
    simp only [show ¬ (43 = 37) by decide, if_false] at hv
    obtain ⟨e, he⟩ := ih hv
    refine ⟨e, ?_⟩
    unfold unescapeScan
    simp only [show ¬ (43 = 37) by decide, if_false, if_true, he]
  | case6 c rest n hp hc hc43 ih =>
    unfold validPercent at hv
    simp only [hc, if_false] at hv
    obtain ⟨e, he⟩ := ih hv
    refine ⟨e, ?_⟩
    unfold unescapeScan
    simp only [hc, hc43, if_false, he]

theorem QueryUnescape_invalid (s : Bytes) (hv : validPercent s = false) :
    ∃ e, QueryUnescape s = ([], some (.EscapeError e)) := by
  obtain ⟨e, he⟩ := unescapeScan_invalid s hv 0 false
  exact ⟨e, by simp [QueryUnescape, he]⟩

/-- C4 (amended): when steps 1-5 succeed and the remainder after `#` is not a valid
percent-encoding, fromLineSmart returns no error and Name is the empty string. -/
theorem fromLineSmart_bad_name (s : SubItem) (t pw hst port args name : Bytes)
    (h1 : 58 ∉ t) (h2 : 64 ∉ pw) (h3 : 58 ∉ hst) (h4 : 63 ∉ port) (h5 : 35 ∉ args)
    (hport : (Atoi port).2 = none) (hq : (ParseQuery args).2 = none)
    (hbad : validPercent name = false) :
    (fromLineSmart s (t ++ 58 :: (pw ++ 64 :: (hst ++ 58 :: (port ++ 63 ::
      (args ++ 35 :: name)))))).2 = none ∧
    (fromLineSmart s (t ++ 58 :: (pw ++ 64 :: (hst ++ 58 :: (port ++ 63 ::
      (args ++ 35 :: name)))))).1.Name = [] := by
  obtain ⟨e, he⟩ := QueryUnescape_invalid name hbad
  rcases ha : Atoi port with ⟨p, ea⟩
  rw [ha] at hport
  simp only at hport
  subst hport
  rcases hu : ParseQuery args with ⟨u, eu⟩
  rw [hu] at hq
  simp only at hq
  subst hq
  simp [fromLineSmart, readUntil_append 58 t _ h1, readUntil_append 64 pw _ h2,
    readUntil_append 58 hst _ h3, readUntil_append 63 port _ h4, readUntil_append 35 args _ h5,
    ha, hu, he]

theorem fromLineSmart_bad_name_witness :
    (fromLineSmart SubItem.zero (ascii "t" ++ 58 :: (ascii "//p" ++ 64 :: (ascii "h" ++ 58 ::
      (ascii "1" ++ 63 :: (ascii "sni=s" ++ 35 :: ascii "100%")))))).2 = none ∧
    (fromLineSmart SubItem.zero (ascii "t" ++ 58 :: (ascii "//p" ++ 64 :: (ascii "h" ++ 58 ::
      (ascii "1" ++ 63 :: (ascii "sni=s" ++ 35 :: ascii "100%")))))).1.Name = [] :=
  fromLineSmart_bad_name SubItem.zero (ascii "t") (ascii "//p") (ascii "h") (ascii "1")
    (ascii "sni=s") (ascii "100%") (by decide) (by decide) (by decide) (by decide) (by decide)
    (by decide) (by decide) (by decide)

/-- C4 (counterexample): on `t://p@h:1?sni=s#100%` the remainder `100%` is not a valid
percent-encoding, the parse succeeds, and Name is empty, not the raw remainder. -/
theorem bad_name_not_raw :
    validPercent (ascii "100%") = false ∧
    (fromLineSmart SubItem.zero (ascii "t://p@h:1?sni=s#100%")).2 = none ∧
    (fromLineSmart SubItem.zero (ascii "t://p@h:1?sni=s#100%")).1.Name = [] ∧
    (fromLineSmart SubItem.zero (ascii "t://p@h:1?sni=s#100%")).1.Name ≠ ascii "100%" := by
  decide

/-! ## The descriptor after an error, and the batch loop -/

/-- An error return leaves the fields written from step 5 on as they were. -/
theorem fromLineSmart_error_fields (s : SubItem) (line : Bytes)
    (h : (fromLineSmart s line).2 ≠ none) :
    (fromLineSmart s line).1.Name = s.Name ∧ (fromLineSmart s line).1.Sni = s.Sni ∧
    (fromLineSmart s line).1.Network = s.Network ∧
    (fromLineSmart s line).1.SkipCertVerify = s.SkipCertVerify ∧
    (fromLineSmart s line).1.Udp = s.Udp := by
  rcases h1 : readUntil line 58 with ⟨t, e1, r1⟩
  cases e1 with
  | some e => simp [fromLineSmart, h1]
  | none =>
  rcases h2 : readUntil r1 64 with ⟨pw, e2, r2⟩
  cases e2 with
  | some e => simp [fromLineSmart, h1, h2]
  | none =>
  rcases h3 : readUntil r2 58 with ⟨hst, e3, r3⟩
  cases e3 with
  | some e => simp [fromLineSmart, h1, h2, h3]
  | none =>
  rcases h4 : readUntil r3 63 with ⟨port, e4, r4⟩
  cases e4 with
  | some e => simp [fromLineSmart, h1, h2, h3, h4]
  | none =>
  rcases h5 : Atoi port with ⟨p, e5⟩
  cases e5 with
  | some e => simp [fromLineSmart, h1, h2, h3, h4, h5]
  | none =>
  rcases h6 : readUntil r4 35 with ⟨args, e6, name⟩
  cases e6 with
  | some e => simp [fromLineSmart, h1, h2, h3, h4, h5, h6]
  | none =>
  rcases h7 : ParseQuery args with ⟨u, e7⟩
  cases e7 with
  | some e => simp [fromLineSmart, h1, h2, h3, h4, h5, h6, h7]
  | none => simp [fromLineSmart, h1, h2, h3, h4, h5, h6, h7] at h

/-- Every item the batch loop holds comes from a successful parse, if those it started
with do. -/
theorem parseNodes_items (env : Env) (nodes : List Bytes) (items : List SubItem)
    (calls : List Call)
    (h : ∀ it ∈ items, ∃ line, fromLineSmart SubItem.zero line = (it, none)) :
    ∀ it ∈ (parseNodes env nodes items calls).1,
      ∃ line, fromLineSmart SubItem.zero line = (it, none) := by
  induction nodes generalizing items calls with
  | nil => simpa [parseNodes] using h
  | cons v nodes ih =>
    unfold parseNodes
    by_cases hv : TrimSpace env v = []
    · simp only [hv, if_true]
      exact ih items calls h
    · simp only [hv, if_false]
      rcases hp : fromLineSmart SubItem.zero (TrimSpace env v) with ⟨item, e⟩
      cases e with
      | some e => simpa using h
      | none =>
        simp only
        apply ih
        intro it hit
        rcases List.mem_append.mp hit with h1 | h1
        · exact h it h1
        · simp only [List.mem_singleton] at h1
          subst h1
          exact ⟨_, hp⟩

theorem trimmedLines_cons (env : Env) (v : Bytes) (nodes : List Bytes) :
    trimmedLines env (v :: nodes) =
      if TrimSpace env v = [] then trimmedLines env nodes
      else TrimSpace env v :: trimmedLines env nodes := by
  unfold trimmedLines
  by_cases h : TrimSpace env v = [] <;> simp [h, List.filter_cons]

/-- When every non-blank line parses, the batch loop appends their descriptors in order. -/
theorem parseNodes_all_ok (env : Env) (nodes : List Bytes) (items : List SubItem)
    (calls : List Call)
    (h : ∀ l ∈ trimmedLines env nodes, (fromLineSmart SubItem.zero l).2 = none) :
    parseNodes env nodes items calls =
      (items ++ (trimmedLines env nodes).map (fun l => (fromLineSmart SubItem.zero l).1),
       calls ++ (trimmedLines env nodes).map Call.fromLineSmart, none) := by
  induction nodes generalizing items calls with
  | nil => simp [parseNodes, trimmedLines]
  | cons v nodes ih =>
    rw [trimmedLines_cons] at h ⊢
    unfold parseNodes
    by_cases hv : TrimSpace env v = []
    · simp only [hv, if_true] at h ⊢
      exact ih items calls h
    · simp only [hv, if_false] at h ⊢
      have h0 := h (TrimSpace env v) (by simp)
      have ht : ∀ l ∈ trimmedLines env nodes, (fromLineSmart SubItem.zero l).2 = none :=
        fun l hl => h l (by simp [hl])
      rcases hp : fromLineSmart SubItem.zero (TrimSpace env v) with ⟨item, e⟩
      rw [hp] at h0
      simp only at h0
      subst h0
      simp only [ih _ _ ht, List.map_cons, hp, List.append_assoc, List.singleton_append]

/-- When some non-blank line fails, the batch loop ends at the first such line with its
error, having called the parser on the lines up to it and nothing else. -/
theorem parseNodes_first_error (env : Env) (nodes : List Bytes) (items : List SubItem)
    (calls : List Call) (l : Bytes)
    (h : (trimmedLines env nodes).find? failsToParse = some l) :
    ∃ (its : List SubItem) (ls : List Bytes), parseNodes env nodes items calls =
      (its, calls ++ ls.map Call.fromLineSmart, (fromLineSmart SubItem.zero l).2) := by
  induction nodes generalizing items calls with
  | nil => simp [trimmedLines] at h
  | cons v nodes ih =>
    rw [trimmedLines_cons] at h
    unfold parseNodes
    by_cases hv : TrimSpace env v = []
    · simp only [hv, if_true] at h ⊢
      exact ih items calls h
    · simp only [hv, if_false] at h ⊢
      rcases hp : fromLineSmart SubItem.zero (TrimSpace env v) with ⟨item, e⟩
      cases e with
      | some e =>
        have hf : failsToParse (TrimSpace env v) = true := by simp [failsToParse, hp]
        rw [List.find?_cons_of_pos _ hf] at h
        simp only [Option.some.injEq] at h
        subst h
        exact ⟨items, [TrimSpace env v], by simp [hp]⟩
      | none =>
        have hf : ¬ failsToParse (TrimSpace env v) = true := by simp [failsToParse, hp]
        rw [List.find?_cons_of_neg _ hf] at h
        obtain ⟨its, ls, hr⟩ := ih (items ++ [item]) (calls ++ [.fromLineSmart (TrimSpace env v)]) h
        exact ⟨its, TrimSpace env v :: ls, by simp [hr]⟩

theorem find_failsToParse (ls : List Bytes)
    (h : ∃ l ∈ ls, (fromLineSmart SubItem.zero l).2 ≠ none) :
    ∃ l, ls.find? failsToParse = some l ∧ (fromLineSmart SubItem.zero l).2 ≠ none := by
  obtain ⟨l0, hl0, hf0⟩ := h
  cases hfind : ls.find? failsToParse with
  | none =>
    rw [List.find?_eq_none] at hfind
    have := hfind l0 hl0
    simp only [failsToParse, Option.isSome_iff_ne_none] at this
    exact absurd hf0 this
  | some l =>
    have := List.find?_some hfind
    simp only [failsToParse, Option.isSome_iff_ne_none] at this
    exact ⟨l, rfl, this⟩

/-- The batch loop only adds parser calls to the calls made so far. -/
theorem parseNodes_calls (env : Env) (nodes : List Bytes) (items : List SubItem)
    (calls : List Call) :
    ∃ ls : List Bytes, (parseNodes env nodes items calls).2.1 = calls ++ ls.map Call.fromLineSmart := by
  induction nodes generalizing items calls with
  | nil => exact ⟨[], by simp [parseNodes]⟩
  | cons v nodes ih =>
    unfold parseNodes
    by_cases hv : TrimSpace env v = []
    · simp only [hv, if_true]
      exact ih items calls
    · simp only [hv, if_false]
      rcases hp : fromLineSmart SubItem.zero (TrimSpace env v) with ⟨item, e⟩
      cases e with
      | some e => exact ⟨[TrimSpace env v], by simp⟩
      | none =>
        obtain ⟨ls, hr⟩ := ih (items ++ [item]) (calls ++ [.fromLineSmart (TrimSpace env v)])
        exact ⟨TrimSpace env v :: ls, by simp [hr]⟩

/-! ## The subscribe handler -/

/-- C7: a submitted token different from the configured one (the empty one included) gets
status 500 with body `permission denied`, and no stage is entered: the handler makes no
fetch, decode, parse or render call. -/
theorem subscribe_token_mismatch (env : Env) (flagLink flagTpl flagToken token : Bytes)
    (h : token ≠ flagToken) :
    (subscribe env flagLink flagTpl flagToken token).w =
      { status := some 500, body := ascii "permission denied" } ∧
    (subscribe env flagLink flagTpl flagToken token).calls = [] ∧
    (subscribe env flagLink flagTpl flagToken token).panic = none := by
  simp [subscribe, h, ResponseWriter.WriteHeader, ResponseWriter.Write]

/-- C5: when every non-blank line of the decoded feed parses, the handler calls the
parser on the non-blank lines in order and hands the renderer exactly their descriptors,
in the same order and number. -/
theorem subscribe_items_in_order (env : Env) (flagLink flagTpl token body data : Bytes)
    (hget : env.Get flagLink = .ok body) (hread : env.ReadAllBase64 body = (data, none))
    (hall : ∀ l ∈ nonBlankLines env data, (fromLineSmart SubItem.zero l).2 = none) :
    (subscribe env flagLink flagTpl token token).calls =
      [.Get flagLink, .ReadAll body] ++ (nonBlankLines env data).map Call.fromLineSmart ++
        [.renderTemplate flagTpl
          ((nonBlankLines env data).map (fun l => (fromLineSmart SubItem.zero l).1))] := by
  have hp := parseNodes_all_ok env (Split data 10) [] [.Get flagLink, .ReadAll body] hall
  unfold subscribe
  simp only [ne_eq, not_true_eq_false, if_false, hget, hread, hp, nonBlankLines]
  split <;> simp

/-- C6: when some non-blank line of the decoded feed fails to parse, the handler answers
status 500 with the error message of the first failing line as body, and never calls the
renderer. -/
theorem subscribe_first_error (env : Env) (flagLink flagTpl token body data : Bytes)
    (hget : env.Get flagLink = .ok body) (hread : env.ReadAllBase64 body = (data, none))
    (hbad : ∃ l ∈ nonBlankLines env data, (fromLineSmart SubItem.zero l).2 ≠ none) :
    ∃ l err, (nonBlankLines env data).find? failsToParse = some l ∧
      (fromLineSmart SubItem.zero l).2 = some err ∧
      (subscribe env flagLink flagTpl token token).w =
        { status := some 500, body := env.Error err } ∧
      (∀ tplFile items,
        Call.renderTemplate tplFile items ∉ (subscribe env flagLink flagTpl token token).calls) ∧
      (subscribe env flagLink flagTpl token token).panic = none := by
  obtain ⟨l, hfind, hl⟩ := find_failsToParse _ hbad
  obtain ⟨err, herr⟩ := Option.ne_none_iff_exists'.mp hl
  obtain ⟨its, ls, hp⟩ :=
    parseNodes_first_error env (Split data 10) [] [.Get flagLink, .ReadAll body] l hfind
  rw [herr] at hp
  refine ⟨l, err, hfind, herr, ?_, ?_, ?_⟩
  · simp [subscribe, hget, hread, hp, ResponseWriter.WriteHeader, ResponseWriter.Write]
  · intro tplFile items
    simp [subscribe, hget, hread, hp]
  · simp [subscribe, hget, hread, hp]

/-- C8 (defect): with fetch, decode and parse successful, a template that cannot be
loaded makes renderTemplate panic: the handler writes neither a status nor a body, where
a render failure should give status 500 with the error message. -/
theorem subscribe_template_panic (env : Env) (flagLink flagTpl token body data : Bytes)
    (e : GoError)
    (hget : env.Get flagLink = .ok body) (hread : env.ReadAllBase64 body = (data, none))
    (hall : ∀ l ∈ nonBlankLines env data, (fromLineSmart SubItem.zero l).2 = none)
    (htpl : env.ParseFiles flagTpl = some e) :
    (subscribe env flagLink flagTpl token token).panic = some e ∧
    (subscribe env flagLink flagTpl token token).w = { status := none, body := [] } := by
  have hp := parseNodes_all_ok env (Split data 10) [] [.Get flagLink, .ReadAll body] hall
  simp [subscribe, hget, hread, hp, renderTemplate, htpl]

/-- Every descriptor the handler hands to the renderer comes from a successful parse. -/
theorem subscribe_render_items (env : Env) (flagLink flagTpl flagToken token tplFile : Bytes)
    (items : List SubItem)
    (h : Call.renderTemplate tplFile items ∈
      (subscribe env flagLink flagTpl flagToken token).calls) :
    ∀ it ∈ items, ∃ line, fromLineSmart SubItem.zero line = (it, none) := by
  unfold subscribe at h
  by_cases htok : token = flagToken
  · simp only [htok, ne_eq, not_true_eq_false, if_false] at h
    cases hget : env.Get flagLink with
    | error e => simp [hget] at h
    | ok body =>
      simp only [hget] at h
      rcases hread : env.ReadAllBase64 body with ⟨data, e⟩
      cases e with
      | some e => simp [hread] at h
      | none =>
        simp only [hread] at h
        have hits := parseNodes_items env (Split data 10) [] [.Get flagLink, .ReadAll body]
          (by simp)
        obtain ⟨ls, hcalls⟩ :=
          parseNodes_calls env (Split data 10) [] [.Get flagLink, .ReadAll body]
        rcases hp : parseNodes env (Split data 10) [] [.Get flagLink, .ReadAll body] with
          ⟨its, cs, e⟩
        rw [hp] at h hits hcalls
        simp only at hits hcalls
        subst hcalls
        cases e with
        | some e => simp at h
        | none =>
          simp only at h
          have hmem : Call.renderTemplate tplFile items ∈
              ([Call.Get flagLink, Call.ReadAll body] ++ ls.map Call.fromLineSmart) ++
                [Call.renderTemplate flagTpl its] := by
            cases hr : renderTemplate env flagTpl its with
            | panicked v => rw [hr] at h; exact h
            | returned r =>
              rcases r with ⟨text, e⟩
              rw [hr] at h
              cases e <;> exact h
          simp at hmem
          rw [hmem.2]
          exact hits
  · simp [htok] at h

/-- C9 (amended): an error return of fromLineSmart leaves Name, Sni, Network,
SkipCertVerify and Udp as they were (Type, Password, Server and Port may have been
written), and every descriptor the handler hands to the renderer comes from a parse that
returned no error. -/
theorem fromLineSmart_error_partial (s : SubItem) (line : Bytes) (env : Env)
    (flagLink flagTpl flagToken token tplFile : Bytes) (items : List SubItem) :
    ((fromLineSmart s line).2 ≠ none →
      (fromLineSmart s line).1.Name = s.Name ∧ (fromLineSmart s line).1.Sni = s.Sni ∧
      (fromLineSmart s line).1.Network = s.Network ∧
      (fromLineSmart s line).1.SkipCertVerify = s.SkipCertVerify ∧
      (fromLineSmart s line).1.Udp = s.Udp) ∧
    (Call.renderTemplate tplFile items ∈ (subscribe env flagLink flagTpl flagToken token).calls →
      ∀ it ∈ items, ∃ l, fromLineSmart SubItem.zero l = (it, none)) :=
  ⟨fromLineSmart_error_fields s line,
    subscribe_render_items env flagLink flagTpl flagToken token tplFile items⟩

/-- C9 (counterexample): on `a:b` fromLineSmart returns io.EOF after it has written
Type = `a` into the descriptor. -/
theorem error_leaves_type_written :
    (fromLineSmart SubItem.zero (ascii "a:b")).2 = some .EOF ∧
    (fromLineSmart SubItem.zero (ascii "a:b")).1 ≠ SubItem.zero ∧
    (fromLineSmart SubItem.zero (ascii "a:b")).1.Type_ = ascii "a" := by
  decide

theorem subscribe_token_mismatch_witness :
    (subscribe (exampleEnv []) (ascii "http://feed") (ascii "a.tpl") (ascii "secret") []).w =
      { status := some 500, body := ascii "permission denied" } ∧
    (subscribe (exampleEnv []) (ascii "http://feed") (ascii "a.tpl") (ascii "secret") []).calls = [] ∧
    (subscribe (exampleEnv []) (ascii "http://feed") (ascii "a.tpl") (ascii "secret") []).panic = none :=
  subscribe_token_mismatch (exampleEnv []) (ascii "http://feed") (ascii "a.tpl") (ascii "secret")
    [] (by decide)

theorem subscribe_items_in_order_witness :
    (subscribe (exampleEnv (ascii "t://p@h:1?sni=s#n\n\n  u://q@g:2?type=tcp#m \n"))
      (ascii "http://feed") (ascii "a.tpl") (ascii "secret") (ascii "secret")).calls =
      [.Get (ascii "http://feed"), .ReadAll (ascii "body"),
       .fromLineSmart (ascii "t://p@h:1?sni=s#n"), .fromLineSmart (ascii "u://q@g:2?type=tcp#m"),
       .renderTemplate (ascii "a.tpl")
        [{ Name := ascii "n", Type_ := ascii "t", Server := ascii "h", Port := 1,
           Password := ascii "p", Udp := true, Sni := ascii "s", SkipCertVerify := false,
           Network := [] },
         { Name := ascii "m", Type_ := ascii "u", Server := ascii "g", Port := 2,
           Password := ascii "q", Udp := true, Sni := [], SkipCertVerify := false,
           Network := ascii "tcp" }]] :=
  subscribe_items_in_order (exampleEnv (ascii "t://p@h:1?sni=s#n\n\n  u://q@g:2?type=tcp#m \n"))
    (ascii "http://feed") (ascii "a.tpl") (ascii "secret") (ascii "body")
    (ascii "t://p@h:1?sni=s#n\n\n  u://q@g:2?type=tcp#m \n") rfl rfl (by decide)

theorem subscribe_first_error_witness :
    ∃ l err, (nonBlankLines (exampleEnv (ascii "t://p@h:1?sni=s#n\nbad\nu://q@g:x?#m"))
        (ascii "t://p@h:1?sni=s#n\nbad\nu://q@g:x?#m")).find? failsToParse = some l ∧
      (fromLineSmart SubItem.zero l).2 = some err ∧
      (subscribe (exampleEnv (ascii "t://p@h:1?sni=s#n\nbad\nu://q@g:x?#m")) (ascii "http://feed")
        (ascii "a.tpl") (ascii "secret") (ascii "secret")).w =
        { status := some 500,
          body := (exampleEnv (ascii "t://p@h:1?sni=s#n\nbad\nu://q@g:x?#m")).Error err } ∧
      (∀ tplFile items, Call.renderTemplate tplFile items ∉
        (subscribe (exampleEnv (ascii "t://p@h:1?sni=s#n\nbad\nu://q@g:x?#m")) (ascii "http://feed")
          (ascii "a.tpl") (ascii "secret") (ascii "secret")).calls) ∧
      (subscribe (exampleEnv (ascii "t://p@h:1?sni=s#n\nbad\nu://q@g:x?#m")) (ascii "http://feed")
        (ascii "a.tpl") (ascii "secret") (ascii "secret")).panic = none :=
  subscribe_first_error (exampleEnv (ascii "t://p@h:1?sni=s#n\nbad\nu://q@g:x?#m"))
    (ascii "http://feed") (ascii "a.tpl") (ascii "secret") (ascii "body")
    (ascii "t://p@h:1?sni=s#n\nbad\nu://q@g:x?#m") rfl rfl
    ⟨ascii "bad", by decide, by decide⟩

theorem subscribe_template_panic_witness :
    (subscribe (exampleEnv (ascii "t://p@h:1?sni=s#n\n")) (ascii "http://feed")
      (ascii "missing.tpl") (ascii "secret") (ascii "secret")).panic =
      some (.errorString "open missing.tpl: no such file or directory") ∧
    (subscribe (exampleEnv (ascii "t://p@h:1?sni=s#n\n")) (ascii "http://feed")
      (ascii "missing.tpl") (ascii "secret") (ascii "secret")).w = { status := none, body := [] } :=
  subscribe_template_panic (exampleEnv (ascii "t://p@h:1?sni=s#n\n")) (ascii "http://feed")
    (ascii "missing.tpl") (ascii "secret") (ascii "body") (ascii "t://p@h:1?sni=s#n\n") _
    rfl rfl (by decide) (by decide)

theorem fromLineSmart_error_partial_witness :
    (fromLineSmart SubItem.zero (ascii "a:b")).1.Name = [] ∧
    (fromLineSmart SubItem.zero (ascii "a:b")).1.Udp = false ∧
    ∀ it ∈ [exampleItem], ∃ l, fromLineSmart SubItem.zero l = (it, none) :=
  have h := fromLineSmart_error_partial SubItem.zero (ascii "a:b")
    (exampleEnv (ascii "t://p@h:1?sni=s#n")) (ascii "http://feed") (ascii "a.tpl")
    (ascii "secret") (ascii "secret") (ascii "a.tpl") [exampleItem]
  ⟨(h.1 (by decide)).1, (h.1 (by decide)).2.2.2.2, h.2 (by decide)⟩

/-! ## The query fragment -/

theorem validPercent_cons_of_ne (c : Nat) (rest : Bytes) (hc : c ≠ 37) :
    validPercent (c :: rest) = validPercent rest := by
  conv_lhs => unfold validPercent
  simp only [hc, if_false]

theorem validPercent_escape (x y : Nat) (rest : Bytes) :
    validPercent (37 :: x :: y :: rest) = (ishex x && ishex y && validPercent rest) := by
  conv_lhs => unfold validPercent
  simp only [if_true]

/-- A separator that is neither `%` nor a hexadecimal digit splits the validity of the
escapes. -/
theorem validPercent_append_sep (sep : Nat) (h37 : sep ≠ 37) (hx : ishex sep = false)
    (a b : Bytes) :
    validPercent (a ++ sep :: b) = (validPercent a && validPercent b) := by
  induction a using validPercent.induct with
  | case1 =>
    rw [List.nil_append, validPercent_cons_of_ne sep b h37]
    simp [validPercent]
  | case2 x y rest2 ih =>
    rw [List.cons_append, List.cons_append, List.cons_append, validPercent_escape,
      validPercent_escape, ih, Bool.and_assoc, Bool.and_assoc, Bool.and_assoc]
  | case3 rest hrest =>
    match rest, hrest with
    | [], _ =>
      cases b with
      | nil => simp [validPercent]
      | cons b0 b => simp [validPercent, hx]
    | [x], _ => simp [validPercent, hx]
    | x :: y :: r, h => exact absurd rfl (fun e => h x y r e)
  | case4 c rest hc ih =>
    rw [List.cons_append, validPercent_cons_of_ne c _ hc, validPercent_cons_of_ne c _ hc, ih]

theorem Cut_spec (q : Bytes) (sep : Nat) :
    (∃ a b, q = a ++ sep :: b ∧ sep ∉ a ∧ Cut q sep = (a, b, true)) ∨
    (sep ∉ q ∧ Cut q sep = (q, [], false)) := by
  rcases split_at_first sep q with ⟨a, b, hab, ha⟩ | hq
  · left; exact ⟨a, b, hab, ha, by rw [hab]; exact Cut_append sep a b ha⟩
  · right; exact ⟨hq, Cut_notMem sep q hq⟩

theorem validPercent_of_QueryUnescape (s r : Bytes) (h : QueryUnescape s = (r, none)) :
    validPercent s = true := by
  by_contra hv
  simp only [Bool.not_eq_true] at hv
  obtain ⟨e, he⟩ := QueryUnescape_invalid s hv
  rw [he] at h
  simp at h

/-- The two pieces of a `key=value` segment have valid escapes only if the segment has. -/
theorem validPercent_Cut_eq (key : Bytes)
    (hk : validPercent (Cut key 61).1 = true) (hv : validPercent (Cut key 61).2.1 = true) :
    validPercent key = true := by
  rcases Cut_spec key 61 with ⟨a, b, hab, _, hc⟩ | ⟨_, hc⟩
  · rw [hc] at hk hv
    simp only at hk hv
    rw [hab, validPercent_append_sep 61 (by decide) (by decide), hk, hv]
    rfl
  · rw [hc] at hk
    exact hk

/-- One iteration of the loop of parseQuery: it goes on with the text after the first `&`,
keeps an error already found, and finds one when the segment holds a bad escape. -/
theorem parseQueryLoop_step (fuel : Nat) (m : Values) (err : Option GoError) (q : Bytes)
    (hq : q ≠ []) :
    ∃ m2 err2, parseQueryLoop (fuel + 1) m err q = parseQueryLoop fuel m2 err2 (Cut q 38).2.1 ∧
      (err ≠ none → err2 ≠ none) ∧ (validPercent (Cut q 38).1 = false → err2 ≠ none) := by
  rw [parseQueryLoop]
  simp only [hq, if_false]
  by_cases hs : Contains (Cut q 38).1 59 = true
  · simp only [hs, if_true]
    exact ⟨_, _, rfl, by simp, by simp⟩
  · simp only [hs, Bool.false_eq_true, if_false]
    by_cases hk : (Cut q 38).1 = []
    · simp only [hk, if_true]
      exact ⟨_, _, rfl, id, by simp [validPercent]⟩
    · simp only [hk, if_false]
      rcases h1 : QueryUnescape (Cut (Cut q 38).1 61).1 with ⟨key1, e1⟩
      cases e1 with
      | some e1 =>
        refine ⟨_, _, rfl, ?_, ?_⟩ <;> cases err <;> simp
      | none =>
        rcases h2 : QueryUnescape (Cut (Cut q 38).1 61).2.1 with ⟨value, e2⟩
        cases e2 with
        | some e2 =>
          refine ⟨_, _, rfl, ?_, ?_⟩ <;> cases err <;> simp
        | none =>
          refine ⟨_, _, rfl, id, ?_⟩
          intro hbad
          have := validPercent_Cut_eq (Cut q 38).1 (validPercent_of_QueryUnescape _ _ h1)
            (validPercent_of_QueryUnescape _ _ h2)
          rw [this] at hbad
          exact absurd hbad (by decide)

theorem parseQueryLoop_error_kept (fuel : Nat) (m : Values) (err : Option GoError) (q : Bytes)
    (h : err ≠ none) : (parseQueryLoop fuel m err q).2 ≠ none := by
  induction fuel generalizing m err q with
  | zero => simpa [parseQueryLoop] using h
  | succ fuel ih =>
    by_cases hq : q = []
    · subst hq; simpa [parseQueryLoop] using h
    · obtain ⟨m2, err2, hstep, hkeep, _⟩ := parseQueryLoop_step fuel m err q hq
      rw [hstep]
      exact ih m2 err2 _ (hkeep h)

theorem Cut_length (q : Bytes) (sep : Nat) (hq : q ≠ []) : (Cut q sep).2.1.length < q.length := by
  rcases Cut_spec q sep with ⟨a, b, hab, _, hc⟩ | ⟨_, hc⟩
  · rw [hc, hab]; simp; omega
  · rw [hc]; simp [List.length_pos.mpr hq]

theorem validPercent_Cut_amp (q : Bytes) (h : validPercent q = false) :
    validPercent (Cut q 38).1 = false ∨ validPercent (Cut q 38).2.1 = false := by
  rcases Cut_spec q 38 with ⟨a, b, hab, _, hc⟩ | ⟨_, hc⟩
  · rw [hc]
    rw [hab, validPercent_append_sep 38 (by decide) (by decide)] at h
    simp only [Bool.and_eq_false_iff] at h
    exact h
  · rw [hc]; left; exact h

/-- A query string with a bad escape makes parseQuery return an error. -/
theorem parseQueryLoop_invalid (fuel : Nat) (m : Values) (err : Option GoError) (q : Bytes)
    (hfuel : q.length ≤ fuel) (h : validPercent q = false) :
    (parseQueryLoop fuel m err q).2 ≠ none := by
  induction fuel generalizing m err q with
  | zero =>
    have : q = [] := List.length_eq_zero.mp (Nat.le_zero.mp hfuel)
    subst this
    simp [validPercent] at h
  | succ fuel ih =>
    have hq : q ≠ [] := by
      intro e; subst e; simp [validPercent] at h
    obtain ⟨m2, err2, hstep, _, hbad⟩ := parseQueryLoop_step fuel m err q hq
    rw [hstep]
    rcases validPercent_Cut_amp q h with hk | hr
    · exact parseQueryLoop_error_kept fuel m2 err2 _ (hbad hk)
    · have := Cut_length q 38 hq
      exact ih m2 err2 _ (by omega) hr

theorem ParseQuery_invalid (q : Bytes) (h : validPercent q = false) :
    (ParseQuery q).2 ≠ none :=
  parseQueryLoop_invalid q.length _ _ q (le_refl _) h

/-- C10: when steps 1-4 reach a query fragment ended by `#`, a fragment that url.ParseQuery
rejects, in particular one with a `%` not followed by two hexadecimal digits, makes
fromLineSmart return an error. -/
theorem fromLineSmart_bad_query (s : SubItem) (t pw hst port args name : Bytes)
    (h1 : 58 ∉ t) (h2 : 64 ∉ pw) (h3 : 58 ∉ hst) (h4 : 63 ∉ port) (h5 : 35 ∉ args)
    (hbad : (ParseQuery args).2 ≠ none ∨ validPercent args = false) :
    (fromLineSmart s (t ++ 58 :: (pw ++ 64 :: (hst ++ 58 :: (port ++ 63 ::
      (args ++ 35 :: name)))))).2 ≠ none := by
  have hq : (ParseQuery args).2 ≠ none := by
    rcases hbad with h | h
    · exact h
    · exact ParseQuery_invalid args h
  rcases ha : Atoi port with ⟨p, ea⟩
  rcases hu : ParseQuery args with ⟨u, eu⟩
  rw [hu] at hq
  cases ea with
  | some e =>
    simp [fromLineSmart, readUntil_append 58 t _ h1, readUntil_append 64 pw _ h2,
      readUntil_append 58 hst _ h3, readUntil_append 63 port _ h4, ha]
  | none =>
    cases eu with
    | none => exact absurd rfl hq
    | some e =>
      simp [fromLineSmart, readUntil_append 58 t _ h1, readUntil_append 64 pw _ h2,
        readUntil_append 58 hst _ h3, readUntil_append 63 port _ h4,
        readUntil_append 35 args _ h5, ha, hu]

theorem fromLineSmart_bad_query_witness :
    (fromLineSmart SubItem.zero (ascii "t" ++ 58 :: (ascii "//p" ++ 64 :: (ascii "h" ++ 58 ::
      (ascii "1" ++ 63 :: (ascii "sni=%zz&type=tcp" ++ 35 :: ascii "n")))))).2 ≠ none :=
  fromLineSmart_bad_query SubItem.zero (ascii "t") (ascii "//p") (ascii "h") (ascii "1")
    (ascii "sni=%zz&type=tcp") (ascii "n") (by decide) (by decide) (by decide) (by decide)
    (by decide) (Or.inr (by decide))

/-! ## The stages of the handler -/

/-- The responses of the handler to a matching token, stage by stage, when renderTemplate
returns: a failed fetch or decode gives 500 with an empty body, a failed parse or a render
error gives 500 with the message, and a rendered text gives 200 with that text; no stage
is called after a failed one. -/
theorem subscribe_pipeline (env : Env) (flagLink flagTpl token : Bytes) :
    (∀ e, env.Get flagLink = .error e →
      (subscribe env flagLink flagTpl token token).w = { status := some 500, body := [] } ∧
      (subscribe env flagLink flagTpl token token).calls = [.Get flagLink]) ∧
    (∀ body data e, env.Get flagLink = .ok body → env.ReadAllBase64 body = (data, some e) →
      (subscribe env flagLink flagTpl token token).w = { status := some 500, body := [] } ∧
      (subscribe env flagLink flagTpl token token).calls = [.Get flagLink, .ReadAll body]) ∧
    (∀ body data its cs e, env.Get flagLink = .ok body →
      env.ReadAllBase64 body = (data, none) →
      parseNodes env (Split data 10) [] [.Get flagLink, .ReadAll body] = (its, cs, some e) →
      (subscribe env flagLink flagTpl token token).w =
        { status := some 500, body := env.Error e } ∧
      (subscribe env flagLink flagTpl token token).calls = cs) ∧
    (∀ body data its cs x e, env.Get flagLink = .ok body →
      env.ReadAllBase64 body = (data, none) →
      parseNodes env (Split data 10) [] [.Get flagLink, .ReadAll body] = (its, cs, none) →
      renderTemplate env flagTpl its = .returned (x, some e) →
      (subscribe env flagLink flagTpl token token).w =
        { status := some 500, body := env.Error e } ∧
      (subscribe env flagLink flagTpl token token).calls =
        cs ++ [.renderTemplate flagTpl its]) ∧
    (∀ body data its cs text, env.Get flagLink = .ok body →
      env.ReadAllBase64 body = (data, none) →
      parseNodes env (Split data 10) [] [.Get flagLink, .ReadAll body] = (its, cs, none) →
      renderTemplate env flagTpl its = .returned (text, none) →
      (subscribe env flagLink flagTpl token token).w = { status := some 200, body := text } ∧
      (subscribe env flagLink flagTpl token token).calls =
        cs ++ [.renderTemplate flagTpl its]) := by
  refine ⟨?_, ?_, ?_, ?_, ?_⟩
  · intro e hget
    simp [subscribe, hget, ResponseWriter.WriteHeader]
  · intro body data e hget hread
    simp [subscribe, hget, hread, ResponseWriter.WriteHeader]
  · intro body data its cs e hget hread hp
    simp [subscribe, hget, hread, hp, ResponseWriter.WriteHeader, ResponseWriter.Write]
  · intro body data its cs x e hget hread hp hr
    simp [subscribe, hget, hread, hp, hr, ResponseWriter.WriteHeader, ResponseWriter.Write]
  · intro body data its cs text hget hread hp hr
    simp [subscribe, hget, hread, hp, hr, ResponseWriter.WriteHeader, ResponseWriter.Write]

/-- The handler answers 200 exactly when all four stages succeed, and then the body is
the rendered text. -/
theorem subscribe_ok_iff (env : Env) (flagLink flagTpl token : Bytes) (text : Bytes) :
    (subscribe env flagLink flagTpl token token).w = { status := some 200, body := text } ↔
      ∃ body data its cs, env.Get flagLink = .ok body ∧
        env.ReadAllBase64 body = (data, none) ∧
        parseNodes env (Split data 10) [] [.Get flagLink, .ReadAll body] = (its, cs, none) ∧
        renderTemplate env flagTpl its = .returned (text, none) := by
  constructor
  · intro h
    unfold subscribe at h
    simp only [ne_eq, not_true_eq_false, if_false] at h
    cases hget : env.Get flagLink with
    | error e => simp [hget, ResponseWriter.WriteHeader] at h
    | ok body =>
      rcases hread : env.ReadAllBase64 body with ⟨data, e⟩
      cases e with
      | some e => simp [hget, hread, ResponseWriter.WriteHeader] at h
      | none =>
        rcases hp : parseNodes env (Split data 10) [] [.Get flagLink, .ReadAll body] with
          ⟨its, cs, e⟩
        cases e with
        | some e =>
          simp [hget, hread, hp, ResponseWriter.WriteHeader, ResponseWriter.Write] at h
        | none =>
          cases hr : renderTemplate env flagTpl its with
          | panicked v => simp [hget, hread, hp, hr] at h
          | returned r =>
            rcases r with ⟨x, e⟩
            cases e with
            | some e =>
              simp [hget, hread, hp, hr, ResponseWriter.WriteHeader, ResponseWriter.Write] at h
            | none =>
              simp [hget, hread, hp, hr, ResponseWriter.WriteHeader, ResponseWriter.Write] at h
              exact ⟨body, data, its, cs, rfl, hread, hp, by rw [← h]; exact hr⟩
  · rintro ⟨body, data, its, cs, hget, hread, hp, hr⟩
    exact ((subscribe_pipeline env flagLink flagTpl token).2.2.2.2 body data its cs text hget
      hread hp hr).1

/-! ## The fields read from the query fragment -/

/-- C11: on every line that fromLineSmart parses, SkipCertVerify is true exactly when the
value of the query key `allowInsecure` is the string `1`; it is false when the key is
absent; Sni is the value of the key `sni`, the empty string when that key is absent. -/
theorem fromLineSmart_query_flags (s : SubItem) (line : Bytes)
    (h : (fromLineSmart s line).2 = none) :
    ∃ t pw hst port args name u,
      line = t ++ 58 :: (pw ++ 64 :: (hst ++ 58 :: (port ++ 63 :: (args ++ 35 :: name)))) ∧
      58 ∉ t ∧ 64 ∉ pw ∧ 58 ∉ hst ∧ 63 ∉ port ∧ 35 ∉ args ∧
      ParseQuery args = (u, none) ∧
      ((fromLineSmart s line).1.SkipCertVerify = true ↔
        u.Get (ascii "allowInsecure") = ascii "1") ∧
      (u (ascii "allowInsecure") = [] → (fromLineSmart s line).1.SkipCertVerify = false) ∧
      (fromLineSmart s line).1.Sni = u.Get (ascii "sni") ∧
      (u (ascii "sni") = [] → (fromLineSmart s line).1.Sni = []) := by
  obtain ⟨t, pw, hst, port, args, name, p, u, hl, n1, n2, n3, n4, n5, _, hu, hr⟩ :=
    fromLineSmart_ok s line h
  refine ⟨t, pw, hst, port, args, name, u, hl, n1, n2, n3, n4, n5, hu, ?_, ?_, ?_, ?_⟩
  · rw [hr]; simp
  · intro hk
    rw [hr]
    simp only [Values.Get, hk]
    decide
  · rw [hr]
  · intro hk
    rw [hr]
    simp only [Values.Get, hk]

theorem fromLineSmart_query_flags_witness :
    ∃ t pw hst port args name u,
      ascii "t://p@h:1?allowInsecure=01&type=tcp#n" =
        t ++ 58 :: (pw ++ 64 :: (hst ++ 58 :: (port ++ 63 :: (args ++ 35 :: name)))) ∧
      58 ∉ t ∧ 64 ∉ pw ∧ 58 ∉ hst ∧ 63 ∉ port ∧ 35 ∉ args ∧
      ParseQuery args = (u, none) ∧
      ((fromLineSmart SubItem.zero (ascii "t://p@h:1?allowInsecure=01&type=tcp#n")).1.SkipCertVerify
          = true ↔ u.Get (ascii "allowInsecure") = ascii "1") ∧
      (u (ascii "allowInsecure") = [] →
        (fromLineSmart SubItem.zero (ascii "t://p@h:1?allowInsecure=01&type=tcp#n")).1.SkipCertVerify
          = false) ∧
      (fromLineSmart SubItem.zero (ascii "t://p@h:1?allowInsecure=01&type=tcp#n")).1.Sni =
        u.Get (ascii "sni") ∧
      (u (ascii "sni") = [] →
        (fromLineSmart SubItem.zero (ascii "t://p@h:1?allowInsecure=01&type=tcp#n")).1.Sni = []) :=
  fromLineSmart_query_flags SubItem.zero (ascii "t://p@h:1?allowInsecure=01&type=tcp#n")
    (by decide)

/-- Worked values of `allowInsecure`: only `1` sets SkipCertVerify. -/
theorem skipCertVerify_examples :
    (fromLineSmart SubItem.zero (ascii "t://p@h:1?allowInsecure=1#n")).1.SkipCertVerify = true ∧
    (fromLineSmart SubItem.zero (ascii "t://p@h:1?allowInsecure=0#n")).1.SkipCertVerify = false ∧
    (fromLineSmart SubItem.zero (ascii "t://p@h:1?allowInsecure=true#n")).1.SkipCertVerify = false ∧
    (fromLineSmart SubItem.zero (ascii "t://p@h:1?allowInsecure=01#n")).1.SkipCertVerify = false ∧
    (fromLineSmart SubItem.zero (ascii "t://p@h:1?allowInsecure=#n")).1.SkipCertVerify = false ∧
    (fromLineSmart SubItem.zero (ascii "t://p@h:1?type=tcp#n")).1.SkipCertVerify = false ∧
    (fromLineSmart SubItem.zero (ascii "t://p@h:1?type=tcp#n")).1.Sni = [] := by
  decide

/-- C12: on every line that fromLineSmart parses, Udp is true. -/
theorem fromLineSmart_udp (s : SubItem) (line : Bytes) (h : (fromLineSmart s line).2 = none) :
    (fromLineSmart s line).1.Udp = true := by
  obtain ⟨t, pw, hst, port, args, name, p, u, -, -, -, -, -, -, -, -, hr⟩ :=
    fromLineSmart_ok s line h
  rw [hr]

theorem fromLineSmart_udp_witness :
    (fromLineSmart SubItem.zero (ascii "ss://p@h:1?x=y#n")).1.Udp = true :=
  fromLineSmart_udp SubItem.zero (ascii "ss://p@h:1?x=y#n") (by decide)

/-! ## The password field -/

theorem TrimPrefix_stripSlashes (raw : Bytes) : TrimPrefix raw [47, 47] = stripSlashes raw := by
  match raw with
  | [] => rfl
  | [a] =>
    simp [TrimPrefix, HasPrefix, stripSlashes]
  | a :: b :: rest =>
    by_cases ha : a = 47
    · by_cases hb : b = 47
      · subst ha; subst hb; simp [TrimPrefix, HasPrefix, stripSlashes]
      · subst ha
        have : stripSlashes (47 :: b :: rest) = 47 :: b :: rest := by
          unfold stripSlashes
          split
          · rename_i heq; simp at heq; exact absurd heq.1 hb
          · rfl
        simp [TrimPrefix, HasPrefix, hb, this]
    · have : stripSlashes (a :: b :: rest) = a :: b :: rest := by
        unfold stripSlashes
        split
        · rename_i heq; simp at heq; exact absurd heq.1 ha
        · rfl
      simp [TrimPrefix, HasPrefix, ha, this]

/-- C17: on every line that fromLineSmart parses, Password is the raw field between the
first `:` and the first `@` after it, with one leading `//` removed if the raw field
starts with one and unchanged otherwise. -/
theorem fromLineSmart_password (s : SubItem) (line : Bytes)
    (h : (fromLineSmart s line).2 = none) :
    ∃ t raw rest, line = t ++ 58 :: (raw ++ 64 :: rest) ∧ 58 ∉ t ∧ 64 ∉ raw ∧
      (fromLineSmart s line).1.Password = stripSlashes raw := by
  obtain ⟨t, pw, hst, port, args, name, p, u, hl, n1, n2, -, -, -, -, -, hr⟩ :=
    fromLineSmart_ok s line h
  exact ⟨t, pw, _, hl, n1, n2, by rw [hr]; exact TrimPrefix_stripSlashes pw⟩

theorem fromLineSmart_password_witness :
    ∃ t raw rest, ascii "t:////x:y@h:1?sni=s#n" = t ++ 58 :: (raw ++ 64 :: rest) ∧ 58 ∉ t ∧
      64 ∉ raw ∧
      (fromLineSmart SubItem.zero (ascii "t:////x:y@h:1?sni=s#n")).1.Password = stripSlashes raw :=
  fromLineSmart_password SubItem.zero (ascii "t:////x:y@h:1?sni=s#n") (by decide)

/-- Worked passwords: `////x` gives `//x`, and a `:` inside the password is kept. -/
theorem password_examples :
    (fromLineSmart SubItem.zero (ascii "t:////x@h:1?sni=s#n")).1.Password = ascii "//x" ∧
    (fromLineSmart SubItem.zero (ascii "t://a:b@h:1?sni=s#n")).1.Password = ascii "a:b" ∧
    (fromLineSmart SubItem.zero (ascii "t:/x@h:1?sni=s#n")).1.Password = ascii "/x" ∧
    (fromLineSmart SubItem.zero (ascii "t://a:b@h:1?sni=s#n")).2 = none := by
  decide

/-! ## The scanner readUntil -/

/-- C18: on `a ++ [t] ++ b` with no `t` in `a`, readUntil returns `a` with no error and
leaves the reader at `b`; on an input without `t` it returns an error (io.EOF) with the
whole input consumed. -/
theorem readUntil_scan (t : Nat) (a b r : Bytes) :
    (t ∉ a → readUntil (a ++ [t] ++ b) t = (a, none, b)) ∧
    (t ∉ r → readUntil r t = (r, some .EOF, [])) := by
  constructor
  · intro ha
    rw [List.append_assoc, List.singleton_append]
    exact readUntil_append t a b ha
  · exact readUntil_notMem t r

theorem readUntil_scan_witness :
    readUntil (ascii "trojan" ++ [58] ++ ascii "//secret@host:1") 58 =
      (ascii "trojan", none, ascii "//secret@host:1") ∧
    readUntil (ascii "trojan") 58 = (ascii "trojan", some .EOF, []) :=
  ⟨(readUntil_scan 58 (ascii "trojan") (ascii "//secret@host:1") (ascii "trojan")).1 (by decide),
   (readUntil_scan 58 (ascii "trojan") (ascii "//secret@host:1") (ascii "trojan")).2 (by decide)⟩

/-! ## renderTemplate -/

/-- C14 (defect): when the template cannot be loaded or parsed, renderTemplate does not
return an error: template.Must panics with the load error. -/
theorem renderTemplate_panics (env : Env) (tplFile : Bytes) (items : List SubItem)
    (e : GoError) (h : env.ParseFiles tplFile = some e) :
    renderTemplate env tplFile items = .panicked e := by
  simp [renderTemplate, h]

theorem renderTemplate_panics_witness :
    renderTemplate (exampleEnv []) (ascii "missing.tpl") [exampleItem] =
      .panicked (.errorString "open missing.tpl: no such file or directory") :=
  renderTemplate_panics (exampleEnv []) (ascii "missing.tpl") [exampleItem] _ (by decide)

/-! ## Query-unescaping of the name -/

theorem unescapeBuild_eq_queryDecode (s : Bytes) (hv : validPercent s = true) :
    unescapeBuild s = queryDecode s := by
  induction s using validPercent.induct with
  | case1 => simp [unescapeBuild, queryDecode]
  | case2 a b rest2 ih =>
    simp only [validPercent, if_true, Bool.and_eq_true] at hv
    simp only [unescapeBuild, queryDecode, if_true, ih hv.2]
    rw [byte_of_nibbles _ (unhex_lt a) _ (unhex_lt b), unhex_eq_hexValue a hv.1.1,
      unhex_eq_hexValue b hv.1.2]
  | case3 rest hrest =>
    exfalso
    match rest, hrest with
    | [], _ => simp [validPercent] at hv
    | [_], _ => simp [validPercent] at hv
    | a :: b :: r, h => exact h a b r rfl
  | case4 c rest hc ih =>
    rw [validPercent_cons_of_ne c rest hc] at hv
    unfold unescapeBuild queryDecode
    by_cases hc43 : c = 43
    · simp only [hc, hc43, if_false, if_true, ih hv]
      simp
    · simp only [hc, hc43, if_false, ih hv]

theorem unescapeScan_valid_any (s : Bytes) (hv : validPercent s = true) (n : Nat) (hp : Bool) :
    ∃ k hp2, unescapeScan s n hp = .ok (k, hp2) ∧ n ≤ k ∧ (hp = true → hp2 = true) ∧
      (k = n → hp2 = false → queryDecode s = s) := by
  induction s using validPercent.induct generalizing n hp with
  | case1 => exact ⟨n, hp, by simp [unescapeScan, queryDecode]⟩
  | case2 a b rest2 ih =>
    simp only [validPercent, if_true, Bool.and_eq_true] at hv
    obtain ⟨k, hp2, h1, h2, h3, _⟩ := ih hv.2 (n + 1) hp
    refine ⟨k, hp2, ?_, by omega, h3, fun e => by omega⟩
    simp only [unescapeScan, if_true, hv.1.1, hv.1.2, Bool.and_self, h1]
  | case3 rest hrest =>
    exfalso
    match rest, hrest with
    | [], _ => simp [validPercent] at hv
    | [_], _ => simp [validPercent] at hv
    | a :: b :: r, h => exact h a b r rfl
  | case4 c rest hc ih =>
    rw [validPercent_cons_of_ne c rest hc] at hv
    by_cases hc43 : c = 43
    · obtain ⟨k, hp2, h1, h2, h3, _⟩ := ih hv n true
      refine ⟨k, hp2, ?_, h2, fun _ => h3 rfl, fun _ hf => ?_⟩
      · unfold unescapeScan
        simp only [hc, hc43, if_false, if_true, h1]
        simp [h1]
      · rw [h3 rfl] at hf
        exact absurd hf (by decide)
    · obtain ⟨k, hp2, h1, h2, h3, h4⟩ := ih hv n hp
      refine ⟨k, hp2, ?_, h2, h3, fun e hf => ?_⟩
      · unfold unescapeScan
        simp only [hc, hc43, if_false, h1]
      · unfold queryDecode
        simp only [hc, hc43, if_false, h4 e hf]

/-- On a validly percent-encoded text url.QueryUnescape returns its query-decoding. -/
theorem QueryUnescape_queryDecode (s : Bytes) (hv : validPercent s = true) :
    QueryUnescape s = (queryDecode s, none) := by
  obtain ⟨k, hp2, h1, _, _, h4⟩ := unescapeScan_valid_any s hv 0 false
  unfold QueryUnescape
  rw [h1]
  by_cases hk : k = 0 ∧ hp2 = false
  · simp only [hk, and_self, if_true, h4 hk.1 hk.2]
  · simp only [hk, if_false, unescapeBuild_eq_queryDecode s hv]

/-- C16 (amended): on every line that fromLineSmart parses, Name is the query-unescaping
of the remainder after `#`: for a validly percent-encoded remainder each `%XX` triple is
replaced by the byte XX, each `+` by a space, and every other character is copied
unchanged; a remainder with neither `%` nor `+` is copied byte for byte. -/
theorem fromLineSmart_name (s : SubItem) (line : Bytes) (h : (fromLineSmart s line).2 = none) :
    ∃ t pw hst port args name,
      line = t ++ 58 :: (pw ++ 64 :: (hst ++ 58 :: (port ++ 63 :: (args ++ 35 :: name)))) ∧
      58 ∉ t ∧ 64 ∉ pw ∧ 58 ∉ hst ∧ 63 ∉ port ∧ 35 ∉ args ∧
      (validPercent name = true → (fromLineSmart s line).1.Name = queryDecode name) ∧
      (37 ∉ name → 43 ∉ name → (fromLineSmart s line).1.Name = name) := by
  obtain ⟨t, pw, hst, port, args, name, p, u, hl, n1, n2, n3, n4, n5, _, _, hr⟩ :=
    fromLineSmart_ok s line h
  refine ⟨t, pw, hst, port, args, name, hl, n1, n2, n3, n4, n5, ?_, ?_⟩
  · intro hv
    rw [hr, QueryUnescape_queryDecode name hv]
  · intro h37 h43
    rw [hr, QueryUnescape_plain name h37 h43]

theorem fromLineSmart_name_witness :
    ∃ t pw hst port args name,
      ascii "t://p@h:1?sni=s#My%20Node+1" =
        t ++ 58 :: (pw ++ 64 :: (hst ++ 58 :: (port ++ 63 :: (args ++ 35 :: name)))) ∧
      58 ∉ t ∧ 64 ∉ pw ∧ 58 ∉ hst ∧ 63 ∉ port ∧ 35 ∉ args ∧
      (validPercent name = true →
        (fromLineSmart SubItem.zero (ascii "t://p@h:1?sni=s#My%20Node+1")).1.Name =
          queryDecode name) ∧
      (37 ∉ name → 43 ∉ name →
        (fromLineSmart SubItem.zero (ascii "t://p@h:1?sni=s#My%20Node+1")).1.Name = name) :=
  fromLineSmart_name SubItem.zero (ascii "t://p@h:1?sni=s#My%20Node+1") (by decide)

/-- C16 (counterexample): the remainder `a+b` holds no `%`, yet Name is `a b`, not
`a+b`. -/
theorem plus_in_name_becomes_space :
    37 ∉ ascii "a+b" ∧
    (fromLineSmart SubItem.zero (ascii "t://p@h:1?sni=s#a+b")).2 = none ∧
    (fromLineSmart SubItem.zero (ascii "t://p@h:1?sni=s#a+b")).1.Name = ascii "a b" ∧
    (fromLineSmart SubItem.zero (ascii "t://p@h:1?sni=s#a+b")).1.Name ≠ ascii "a+b" := by
  decide

/-! ## The value of the port -/

/-- C15 (amended): when steps 1-3 succeed, a port segment that is a non-empty string of
decimal digits with a value below 2^63 makes step 4 succeed, and Port is that value; no
range 1..65535 is enforced. -/
theorem fromLineSmart_port_value (s : SubItem) (t pw hst port rest : Bytes)
    (h1 : 58 ∉ t) (h2 : 64 ∉ pw) (h3 : 58 ∉ hst)
    (hne : port ≠ []) (hd : isDigits port) (hv : decimalValue port < 2 ^ 63) :
    Atoi port = (((decimalValue port : Nat) : Int), none) ∧
    (fromLineSmart s (t ++ 58 :: (pw ++ 64 :: (hst ++ 58 :: (port ++ 63 :: rest))))).1.Port =
      ((decimalValue port : Nat) : Int) := by
  have ha := Atoi_digits port hne hd hv
  have h4 : 63 ∉ port := not_mem_of_isDigits port hd 63 (by omega)
  refine ⟨ha, ?_⟩
  rcases h6 : readUntil rest 35 with ⟨args, e6, name⟩
  cases e6 with
  | some e =>
    simp [fromLineSmart, readUntil_append 58 t _ h1, readUntil_append 64 pw _ h2,
      readUntil_append 58 hst _ h3, readUntil_append 63 port _ h4, ha, h6]
  | none =>
    rcases h7 : ParseQuery args with ⟨u, e7⟩
    cases e7 with
    | some e =>
      simp [fromLineSmart, readUntil_append 58 t _ h1, readUntil_append 64 pw _ h2,
        readUntil_append 58 hst _ h3, readUntil_append 63 port _ h4, ha, h6, h7]
    | none =>
      simp [fromLineSmart, readUntil_append 58 t _ h1, readUntil_append 64 pw _ h2,
        readUntil_append 58 hst _ h3, readUntil_append 63 port _ h4, ha, h6, h7]

theorem fromLineSmart_port_value_witness :
    Atoi (ascii "70000") = (70000, none) ∧
    (fromLineSmart SubItem.zero (ascii "t" ++ 58 :: (ascii "//p" ++ 64 :: (ascii "h" ++ 58 ::
      (ascii "70000" ++ 63 :: ascii "sni=s#n"))))).1.Port = 70000 :=
  fromLineSmart_port_value SubItem.zero (ascii "t") (ascii "//p") (ascii "h") (ascii "70000")
    (ascii "sni=s#n") (by decide) (by decide) (by decide) (by decide) (by decide) (by decide)

/-- C15 (counterexample): the port segment `9223372036854775808` is a non-empty string
of decimal digits, yet step 4 fails with a range error of strconv.Atoi. -/
theorem huge_port_rejected :
    ascii "9223372036854775808" ≠ [] ∧ isDigits (ascii "9223372036854775808") ∧
    58 ∉ ascii "t" ∧ 64 ∉ ascii "//p" ∧ 58 ∉ ascii "h" ∧
    fromLineSmart SubItem.zero (ascii "t" ++ 58 :: (ascii "//p" ++ 64 :: (ascii "h" ++ 58 ::
      (ascii "9223372036854775808" ++ 63 :: ascii "sni=s#n")))) =
      ({ Name := [], Type_ := ascii "t", Server := ascii "h", Port := 9223372036854775807,
         Password := ascii "p", Udp := false, Sni := [], SkipCertVerify := false,
         Network := [] },
        some (.NumError "Atoi" (ascii "9223372036854775808") .ErrRange)) := by
  decide

/-- Ports outside 1..65535 are accepted. -/
theorem port_range_examples :
    (fromLineSmart SubItem.zero (ascii "t://p@h:0?sni=s#n")).2 = none ∧
    (fromLineSmart SubItem.zero (ascii "t://p@h:0?sni=s#n")).1.Port = 0 ∧
    (fromLineSmart SubItem.zero (ascii "t://p@h:70000?sni=s#n")).2 = none ∧
    (fromLineSmart SubItem.zero (ascii "t://p@h:70000?sni=s#n")).1.Port = 70000 := by
  decide

/-! ## Delimiters after their first occurrence -/

theorem sniChar_ne (S : Bytes) (hS : ∀ c ∈ S, sniChar c = true) (x : Nat)
    (hx : sniChar x = false) : x ∉ S := by
  intro h
  have := hS x h
  simp [hx] at this

theorem nameChar_ne (S : Bytes) (hS : ∀ c ∈ S, nameChar c = true) (x : Nat)
    (hx : nameChar x = false) : x ∉ S := by
  intro h
  have := hS x h
  simp [hx] at this

/-- C13: for S of letters, digits, `:`, `@`, `?` and Name of those and `#`, the line
`t://p@h:1?sni=S#Name` parses with Type `t`, Password `p`, Server `h`, Port 1, Sni S and
Name Name: only the first occurrence of each delimiter is structural. -/
theorem fromLineSmart_first_occurrence (s : SubItem) (S Name : Bytes)
    (hS : ∀ c ∈ S, sniChar c = true) (hName : ∀ c ∈ Name, nameChar c = true) :
    fromLineSmart s (ascii "t://p@h:1?sni=" ++ S ++ ascii "#" ++ Name) =
      ({ Name := Name, Type_ := ascii "t", Server := ascii "h", Port := 1,
         Password := ascii "p", Udp := true, Sni := S, SkipCertVerify := false,
         Network := [] }, none) := by
  have e : ascii "t://p@h:1?sni=" ++ S ++ ascii "#" ++ Name =
      ascii "t" ++ 58 :: (([47, 47] ++ ascii "p") ++ 64 :: (ascii "h" ++ 58 :: (ascii "1" ++ 63 ::
        ((ascii "sni" ++ 61 :: S) ++ 35 :: Name)))) := by
    simp [ascii]
  have hS2 := fun x hx => sniChar_ne S hS x hx
  have hN2 := fun x hx => nameChar_ne Name hName x hx
  have pS : plainText S :=
    ⟨hS2 38 (by decide), hS2 59 (by decide), hS2 61 (by decide), hS2 37 (by decide),
      hS2 43 (by decide)⟩
  have p1 : plainText (ascii "sni") := by unfold plainText; decide
  have h5 : 35 ∉ ascii "sni" ++ 61 :: S := by
    simp [ascii, hS2 35 (by decide)]
  have hq : ParseQuery (ascii "sni" ++ 61 :: S) =
      (Values.add (fun _ => []) (ascii "sni") S, none) := by
    unfold ParseQuery
    have hl : (ascii "sni" ++ 61 :: S).length = (S.length + 3) + 1 := by simp [ascii]
    rw [hl, parseQueryLoop_last _ _ _ _ _ p1 pS]
  have g1 : Values.Get (Values.add (fun _ => []) (ascii "sni") S) (ascii "sni") = S := by
    simp [Values.Get, Values.add]
  have g2 : Values.Get (Values.add (fun _ => []) (ascii "sni") S) (ascii "type") = [] := by
    simp [Values.Get, Values.add, ascii]
  have g3 : Values.Get (Values.add (fun _ => []) (ascii "sni") S) (ascii "allowInsecure") =
      [] := by
    simp [Values.Get, Values.add, ascii]
  have ha : Atoi (ascii "1") = (1, none) := by decide
  have hb : (([] : Bytes) == ascii "1") = false := by decide
  rw [e]
  unfold fromLineSmart
  simp only [readUntil_append 58 (ascii "t") _ (by decide),
    readUntil_append 64 ([47, 47] ++ ascii "p") _ (by decide),
    readUntil_append 58 (ascii "h") _ (by decide),
    readUntil_append 63 (ascii "1") _ (by decide), readUntil_append 35 _ Name h5,
    TrimPrefix_slashes, ha, hq, g1, g2, g3, hb,
    QueryUnescape_plain Name (hN2 37 (by decide)) (hN2 43 (by decide))]

theorem fromLineSmart_first_occurrence_witness :
    fromLineSmart SubItem.zero (ascii "t://p@h:1?sni=a:b@c?d#x#y:z@w?v") =
      ({ Name := ascii "x#y:z@w?v", Type_ := ascii "t", Server := ascii "h", Port := 1,
         Password := ascii "p", Udp := true, Sni := ascii "a:b@c?d", SkipCertVerify := false,
         Network := [] }, none) :=
  fromLineSmart_first_occurrence SubItem.zero (ascii "a:b@c?d") (ascii "x#y:z@w?v")
    (by decide) (by decide)

/-! ## The legacy parser fromLine -/

/-- C19 (defect): fromLine is not total: on `a:b@c:1` the index `subs[1]` is out of
range (the third part holds no `?`), and on the trojan line of the specification the
index `strings.Split(s.Sni, "#")[1]` is out of range; both calls panic. -/
theorem fromLine_panics :
    fromLine SubItem.zero (ascii "a:b@c:1") =
      .panicked (.errorString "runtime error: index out of range") ∧
    fromLine SubItem.zero
        (ascii "trojan://secret@example.com:443?sni=a.com&type=tcp&allowInsecure=1#My%20Node") =
      .panicked (.errorString "runtime error: index out of range") :=
  ⟨rfl, rfl⟩

/-- Lines on which fromLine returns: a wrong number of `:`-parts is an error, and a line
whose `sni` value holds a `#` is parsed. -/
theorem fromLine_examples :
    fromLine SubItem.zero (ascii "a:b") =
      .returned (SubItem.zero, some (.errorString "invalid line")) ∧
    fromLine SubItem.zero (ascii "t://p@h:1?type=tcp&sni=a.com#n") =
      .returned ({ Name := ascii "n", Type_ := ascii "t", Server := ascii "h", Port := 1,
                   Password := ascii "p", Udp := false, Sni := ascii "a.com",
                   SkipCertVerify := false, Network := [] }, none) :=
  ⟨rfl, rfl⟩

end SubConverter
